import Mathlib

/-!
# Escrow deployment and release scripts

A shallow embedding of `scripts/deployEscrow.js`, `scripts/releaseFunds.js` and the
helpers of `test/EscrowContract.test.js`.

Every script step either prints, talks to an external collaborator (the Hedera SDK,
the ledger, the ethers ABI codec, the mirror node, the operator at the keyboard) or
ends the run.  A run is therefore embedded as the list of observable events it
performs, in order, together with the way it ends.  The external collaborators are
parameters of the embedding: nothing is assumed about what they answer.
-/

namespace Escrow

/-! ## Values and events -/

/-- Identity `shard.realm.num` held by an `AccountId` or a `ContractId` object. -/
structure EntityId where
  shard : Nat
  realm : Nat
  num : Nat
  deriving DecidableEq, Repr

/-- Rendering `toString()` of an `AccountId` / `ContractId`. -/
def EntityId.toString (e : EntityId) : String :=
  Nat.repr e.shard ++ "." ++ Nat.repr e.realm ++ "." ++ Nat.repr e.num

/-- Value thrown by a JavaScript call; `data` is its `data` property when it has one. -/
structure JsError where
  message : String
  data : Option String
  deriving DecidableEq, Repr

/-- JavaScript values that reach the parameters of `contractDeployFcn`. -/
inductive Val where
  | undefined
  | account (a : EntityId)
  | str (s : String)
  | num (n : Nat)
  deriving DecidableEq, Repr

/-- Target network of a ledger client. -/
inductive Network where
  | testnet
  | mainnet
  deriving DecidableEq, Repr

/-- Observable steps of a run, in source order. -/
inductive Event where
  /-- Call `console.log(...args)`, one string per argument. -/
  | log (args : List String)
  /-- Call `console.error(err)`. -/
  | logError (err : JsError)
  /-- Call `Client.forTestnet()` or `Client.forMainnet()`. -/
  | clientCreated (net : Network)
  /-- Call `client.setOperator(operatorId, operatorKey)`. -/
  | operatorSet (id : EntityId)
  /-- Call `fs.readFileSync(path, ...)`. -/
  | fileRead (path : String)
  /-- Call `readlineSync.keyInYNStrict(question)`. -/
  | prompt (question : String)
  /-- Execute a `ContractCreateFlow` carrying bytecode, gas and constructor addresses. -/
  | contractCreate (bytecode : Val) (gas : Val) (params : List String)
  /-- Execute a `ContractExecuteTransaction`. -/
  | contractExecute (cId : EntityId) (gas : Nat) (payload : List Nat) (amount : Nat)
  /-- Execute a `ContractCallQuery`. -/
  | contractCall (cId : Option EntityId) (payload : List Nat)
  /-- Call `getReceipt(client)` on a transaction response. -/
  | receiptRequested (txId : String)
  /-- Call `getRecord(client)` on a transaction response. -/
  | recordRequested (txId : String)
  /-- Call `axios.get(url)`. -/
  | httpGet (url : String)
  deriving DecidableEq, Repr

/-- Operations issued against the ledger. -/
def Event.isLedgerOp : Event → Bool
  | .contractCreate _ _ _ => true
  | .contractExecute _ _ _ _ => true
  | .contractCall _ _ => true
  | .receiptRequested _ => true
  | .recordRequested _ => true
  | _ => false

/-- Creation of a ledger client. -/
def Event.isClientCreation : Event → Bool
  | .clientCreated _ => true
  | _ => false

/-- The interactive yes/no confirmation. -/
def Event.isPrompt : Event → Bool
  | .prompt _ => true
  | _ => false

/-- How an `async` function of a script ends. -/
inductive Outcome (α : Type) where
  /-- The function returned: its promise is fulfilled with the value. -/
  | returned (a : α)
  /-- An exception left the function: its promise is rejected. -/
  | threw (e : JsError)
  /-- The function called `process.exit(code)`. -/
  | exited (code : Nat)
  deriving DecidableEq, Repr

/-- A run: the events performed and the way the run ends. -/
structure Run (α : Type) where
  trace : List Event
  outcome : Outcome α
  deriving DecidableEq

/-- Sequencing of two steps: the second runs only when the first returned. -/
def Run.bind {α β : Type} (m : Run α) (f : α → Run β) : Run β :=
  match m.outcome with
  | .returned a => ⟨m.trace ++ (f a).trace, (f a).outcome⟩
  | .threw e => ⟨m.trace, .threw e⟩
  | .exited c => ⟨m.trace, .exited c⟩

instance : Monad Run where
  pure a := ⟨[], .returned a⟩
  bind := Run.bind

/-- Perform one observable step. -/
def emit (e : Event) : Run Unit := ⟨[e], .returned ()⟩

/-- Statement `throw e`. -/
def throwJs {α : Type} (e : JsError) : Run α := ⟨[], .threw e⟩

/-- Call `process.exit(code)`. -/
def processExit {α : Type} (code : Nat) : Run α := ⟨[], .exited code⟩

/-- Result of a call into an external library: a value or a thrown error. -/
def ofExcept {α : Type} : Except JsError α → Run α
  | .ok a => ⟨[], .returned a⟩
  | .error e => ⟨[], .threw e⟩

/-- Statement `try { body } catch (e) { handler }`; `process.exit` is not catchable. -/
def tryCatch {α : Type} (body : Run α) (handler : JsError → Run α) : Run α :=
  match body.outcome with
  | .threw e => ⟨body.trace ++ (handler e).trace, (handler e).outcome⟩
  | _ => body

/-- The `TypeError` of reading a property of `undefined` or `null`. -/
def typeError (what : String) : JsError :=
  ⟨"TypeError: Cannot read properties of undefined (reading '" ++ what ++ "')", none⟩

/-! ## External collaborators -/

/-- Response of `execute(client)` for a transaction. -/
structure TxResponse where
  transactionId : String
  deriving DecidableEq, Repr

/-- Transaction receipt: status name and, after a creation, the new contract. -/
structure Receipt where
  status : String
  contractId : Option EntityId
  deriving DecidableEq, Repr

/-- Transaction record; `contractFunctionResult` holds the returned bytes when present. -/
structure Record where
  contractFunctionResult : Option (List Nat)
  deriving DecidableEq, Repr

/-- Calls of the Hedera SDK and of the JavaScript runtime used by the scripts. -/
structure Sdk where
  /-- Method `String.prototype.toUpperCase`. -/
  toUpperCase : String → String
  /-- Call `AccountId.fromString(text)`. -/
  accountIdFromString : String → Except JsError EntityId
  /-- Call `ContractId.fromString(text)`; `none` as argument is `undefined`,
  `none` as result is `null`. -/
  contractIdFromString : Option String → Except JsError (Option EntityId)
  /-- Method `toSolidityAddress()` of an `AccountId`. -/
  toSolidityAddress : EntityId → String
  /-- Call `AccountId.fromSolidityAddress(address)`. -/
  fromSolidityAddress : String → Except JsError EntityId
  /-- Method `setBytecode` of `ContractCreateFlow`. -/
  setBytecode : Val → Except JsError Unit
  /-- Method `setGas` of `ContractCreateFlow`. -/
  setGas : Val → Except JsError Unit
  /-- Method `addAddress` of `ContractFunctionParameters`. -/
  addAddress : String → Except JsError Unit

/-- Answers of the ledger to the operations submitted by a client. -/
structure Ledger where
  /-- Method `execute(client)` of a `ContractCreateFlow`. -/
  createContract : Val → Val → List String → Except JsError TxResponse
  /-- Method `execute(client)` of a `ContractExecuteTransaction`. -/
  executeContract : EntityId → Nat → List Nat → Nat → Except JsError TxResponse
  /-- Method `execute(client)` of a `ContractCallQuery`: the returned bytes. -/
  callContract : Option EntityId → List Nat → Except JsError (List Nat)
  /-- Method `getReceipt(client)`. -/
  getReceipt : TxResponse → Except JsError Receipt
  /-- Method `getRecord(client)`. -/
  getRecord : TxResponse → Except JsError Record

/-- Process environment and command line of a script run. -/
structure Config where
  /-- Variable `ENVIRONMENT`, `none` when unset. -/
  env : Option String
  /-- Variable `CONTRACT_NAME`, `none` when unset. -/
  contractName : Option String
  /-- Variable `CONTRACT_ID`, `none` when unset. -/
  contractIdEnv : Option String
  /-- Operator account parsed from `ACCOUNT_ID` when the module loads. -/
  operatorId : EntityId
  /-- Positional arguments `process.argv.slice(2)`. -/
  args : List String

/-- How `console.log` prints a string-or-null value. -/
def showNullable : Option String → String
  | some s => s
  | none => "null"

/-- Argument of a decoded event or field of a decoded result, as the scripts see it. -/
inductive Field where
  /-- A value whose `typeof` is `'string'`. -/
  | str (s : String)
  /-- Any other value, with what its `toString()` returns. -/
  | other (shown : String)
  deriving DecidableEq, Repr

/-- Decoded call result of ethers: its named properties. -/
structure Result where
  named : List (String × Field)
  deriving DecidableEq, Repr

/-- Property read `result[name]`: `none` is `undefined`. -/
def Result.get (r : Result) (name : String) : Option Field :=
  r.named.lookup name

/-- Decoded event of ethers: `name` and `args`. -/
structure LogDescription where
  name : String
  args : List Field
  deriving DecidableEq, Repr

/-- The ethers `Interface` built from the ABI of the build artifact. -/
structure Interface where
  /-- Method `encodeFunctionData(fcnName, params)`: a `0x` hex string. -/
  encodeFunctionData : String → List String → Except JsError String
  /-- Method `decodeFunctionResult(fcnName, bytes)`. -/
  decodeFunctionResult : String → List Nat → Except JsError Result
  /-- Method `parseError(bytes)`, printed as is; `none` is `null`. -/
  parseError : List Nat → Except JsError (Option String)
  /-- Method `parseLog({ topics, data })`. -/
  parseLog : List String → String → Except JsError LogDescription

/-- Value of a hexadecimal digit. -/
def hexDigit (c : Char) : Option Nat :=
  if '0' ≤ c ∧ c ≤ '9' then some (c.toNat - '0'.toNat)
  else if 'a' ≤ c ∧ c ≤ 'f' then some (c.toNat - 'a'.toNat + 10)
  else if 'A' ≤ c ∧ c ≤ 'F' then some (c.toNat - 'A'.toNat + 10)
  else none

/-- Pairs of hexadecimal digits to bytes, up to the first pair that is not one. -/
def hexDecode : List Char → List Nat
  | a :: b :: rest =>
    match hexDigit a, hexDigit b with
    | some x, some y => (16 * x + y) :: hexDecode rest
    | _, _ => []
  | _ => []

/-- Call `Buffer.from(text, 'hex')`. -/
def bufferFromHex (text : String) : List Nat :=
  hexDecode text.toList

/-- Read `record.contractFunctionResult.bytes`. -/
def Record.resultBytes (record : Record) : Run (List Nat) :=
  match record.contractFunctionResult with
  | some bytes => pure bytes
  | none => throwJs (typeError "bytes")

/-! ## `scripts/deployEscrow.js` -/

/-- Method call `w.toSolidityAddress()` on a variable that may hold no account. -/
def callToSolidityAddress (sdk : Sdk) : Val → Run String
  | .account a => pure (sdk.toSolidityAddress a)
  | .undefined => throwJs (typeError "toSolidityAddress")
  | _ => throwJs ⟨"TypeError: toSolidityAddress is not a function", none⟩

namespace DeployEscrow

/-- Function `contractDeployFcn(bytecode, gasLim, walletA, walletB, walletC)` of
`deployEscrow.js`. -/
def contractDeployFcn (sdk : Sdk) (ledger : Ledger)
    (bytecode gasLim walletA walletB walletC : Val) : Run (Option EntityId) := do
  ofExcept (sdk.setBytecode bytecode)
  ofExcept (sdk.setGas gasLim)
  let addrA ← callToSolidityAddress sdk walletA
  ofExcept (sdk.addAddress addrA)
  let addrB ← callToSolidityAddress sdk walletB
  ofExcept (sdk.addAddress addrB)
  let addrC ← callToSolidityAddress sdk walletC
  ofExcept (sdk.addAddress addrC)
  emit (.contractCreate bytecode gasLim [addrA, addrB, addrC])
  let contractCreateSubmit ← ofExcept (ledger.createContract bytecode gasLim [addrA, addrB, addrC])
  emit (.receiptRequested contractCreateSubmit.transactionId)
  let contractCreateRx ← ofExcept (ledger.getReceipt contractCreateSubmit)
  pure contractCreateRx.contractId

/-- Lines 63 to 74 of `main` in `deployEscrow.js`, run once the client exists: set the
operator, ask for confirmation, deploy or exit.  The call
`contractDeployFcn(walletA, walletB, walletC)` passes three arguments to five
parameters: the last two are `undefined`. -/
def confirmAndDeploy (sdk : Sdk) (ledger : Ledger) (cfg : Config) (answer : Bool)
    (walletA walletB walletC : EntityId) : Run Unit := do
  emit (.operatorSet cfg.operatorId)
  emit (.log ["Using Operator:", cfg.operatorId.toString])
  emit (.prompt "Do you want to deploy the contract?")
  if answer then do
    let contractId ← contractDeployFcn sdk ledger
      (.account walletA) (.account walletB) (.account walletC) .undefined .undefined
    match contractId with
    | some cId => emit (.log ["Contract deployed successfully", cId.toString])
    | none => throwJs (typeError "toString")
  else do
    emit (.log ["Exiting..."])
    processExit 1

/-- Function `main` of `deployEscrow.js`; `answer` is what the operator keys in at the
prompt. -/
def main (sdk : Sdk) (ledger : Ledger) (cfg : Config) (answer : Bool) : Run Unit := do
  emit (.log ["Using ENIVRONMENT:", showNullable cfg.env])
  match cfg.args with
  | [arg0, arg1, arg2] =>
    let walletA ← ofExcept (sdk.accountIdFromString arg0)
    let walletB ← ofExcept (sdk.accountIdFromString arg1)
    let walletC ← ofExcept (sdk.accountIdFromString arg2)
    emit (.log ["Using wallets: A", walletA.toString, "B", walletB.toString, "C", walletC.toString])
    match cfg.env with
    | none =>
      emit (.log ["Environment required, please specify TEST or MAIN in the .env file"])
    | some env =>
      match cfg.contractName with
      | none =>
        emit (.log ["Environment required, please specify CONTRACT_NAME for ABI in the .env file"])
      | some _ =>
        if sdk.toUpperCase env = "TEST" then do
          emit (.clientCreated .testnet)
          emit (.log ["execution in *TESTNET*"])
          confirmAndDeploy sdk ledger cfg answer walletA walletB walletC
        else if sdk.toUpperCase env = "MAIN" then do
          emit (.clientCreated .mainnet)
          emit (.log ["execution in *MAINNET*"])
          confirmAndDeploy sdk ledger cfg answer walletA walletB walletC
        else
          emit (.log ["ERROR: Must specify either MAIN or TEST as environment in .env file"])
  | _ =>
    emit (.log ["usage: node deployEscrow.js <wallet A> <wallet B> <wallet C>"])
    emit (.log ["example: node deployEscrow.js 0.0.AAA 0.0.BBB 0.0.CCC"])
    emit (.log ["where A is the payer into escrow, B is receive and C is the referee"])
    processExit 1

end DeployEscrow

/-! ## `scripts/releaseFunds.js` -/

namespace ReleaseFunds

/-- Function `contractExecuteFcn(cId, gasLim, fcnName, params, amountHbar)` of
`releaseFunds.js`; the result is the array `[receipt, contractResults, record]` with
`none` for an `undefined` second element. -/
def contractExecuteFcn (iface : Interface) (ledger : Ledger) (cId : EntityId) (gasLim : Nat)
    (fcnName : String) (params : List String) (amountHbar : Nat) :
    Run (Receipt × Option Result × Record) := do
  let encodedCommand ← ofExcept (iface.encodeFunctionData fcnName params)
  let payload := bufferFromHex (encodedCommand.drop 2)
  emit (.contractExecute cId gasLim payload amountHbar)
  let contractExecuteTx ← ofExcept (ledger.executeContract cId gasLim payload amountHbar)
  emit (.receiptRequested contractExecuteTx.transactionId)
  let contractExecuteRx ← ofExcept (ledger.getReceipt contractExecuteTx)
  emit (.recordRequested contractExecuteTx.transactionId)
  let record ← ofExcept (ledger.getRecord contractExecuteTx)
  let contractResults ← tryCatch
    (do
      let bytes ← record.resultBytes
      let decoded ← ofExcept (iface.decodeFunctionResult fcnName bytes)
      pure (some decoded))
    (fun e => do
      if e.data = some "0x" then
        emit (.log [contractExecuteTx.transactionId,
          "No data returned from contract - check the call"])
      else do
        emit (.log ["Error", contractExecuteTx.transactionId, e.message])
        let bytes ← record.resultBytes
        let parsed ← ofExcept (iface.parseError bytes)
        emit (.log [showNullable parsed])
      pure none)
  pure (contractExecuteRx, contractResults, record)

/-- Path of the build artifact of a contract. -/
def artifactPath (contractName : String) : String :=
  "./artifacts/contracts/" ++ contractName ++ ".sol/" ++ contractName ++ ".json"

/-- Lines 46 to 80 of `main` in `releaseFunds.js`, run once the client exists: set the
operator, load the ABI, pick the contract identity, ask for confirmation, release. -/
def confirmAndRelease (sdk : Sdk) (readAbi : String → Except JsError Interface)
    (ledger : Ledger) (cfg : Config) (answer : Bool) (contractName : String) : Run Unit := do
  emit (.operatorSet cfg.operatorId)
  emit (.log ["Using Operator:", cfg.operatorId.toString])
  emit (.fileRead (artifactPath contractName))
  let iface ← ofExcept (readAbi (artifactPath contractName))
  let contractId ← match cfg.args with
    | [arg0] => ofExcept (sdk.contractIdFromString (some arg0))
    | _ => ofExcept (sdk.contractIdFromString cfg.contractIdEnv)
  match contractId with
  | none =>
    emit (.log ["ContractId required, please specify CONTRACT_ID in the .env file or as an argument"])
    processExit 1
  | some cId =>
    emit (.prompt "Do you want to release funds?")
    if answer then do
      let results ← contractExecuteFcn iface ledger cId 200000 "release" [] 0
      emit (.log ["Contract Results:", results.1.status])
    else
      emit (.log ["Aborting"])

/-- Function `main` of `releaseFunds.js`; `readAbi` reads and parses the artifact and
builds the interface, `answer` is what the operator keys in at the prompt. -/
def main (sdk : Sdk) (readAbi : String → Except JsError Interface) (ledger : Ledger)
    (cfg : Config) (answer : Bool) : Run Unit := do
  emit (.log ["Using ENIVRONMENT:", showNullable cfg.env])
  match cfg.env with
  | none =>
    emit (.log ["Environment required, please specify TEST or MAIN in the .env file"])
  | some env =>
    match cfg.contractName with
    | none =>
      emit (.log ["Environment required, please specify CONTRACT_NAME for ABI in the .env file"])
    | some contractName =>
      if sdk.toUpperCase env = "TEST" then do
        emit (.clientCreated .testnet)
        emit (.log ["execution in *TESTNET*"])
        confirmAndRelease sdk readAbi ledger cfg answer contractName
      else if sdk.toUpperCase env = "MAIN" then do
        emit (.clientCreated .mainnet)
        emit (.log ["execution in *MAINNET*"])
        confirmAndRelease sdk readAbi ledger cfg answer contractName
      else
        emit (.log ["ERROR: Must specify either MAIN or TEST as environment in .env file"])

end ReleaseFunds

/-! ## `test/EscrowContract.test.js` -/

namespace EscrowTest

/-- Module variables of the test file; `none` is a variable not assigned yet. -/
structure Globals where
  contractId : Option EntityId
  aliceId : Option EntityId
  bobId : Option EntityId
  operatorId : EntityId
  iface : Option Interface
  baseUrl : Option String

/-- Read of the module variable `iface` before a method call on it. -/
def Globals.getIface (g : Globals) (method : String) : Run Interface :=
  match g.iface with
  | some iface => pure iface
  | none => throwJs (typeError method)

/-- Content of a module variable holding an account. -/
def accountVal : Option EntityId → Val
  | some a => .account a
  | none => .undefined

/-- Function `contractDeployFcn(bytecode, gasLim)` of the test file: the three
constructor addresses are the module variables `aliceId`, `bobId`, `operatorId`. -/
def contractDeployFcn (g : Globals) (sdk : Sdk) (ledger : Ledger) (bytecode gasLim : Val) :
    Run (Option EntityId) := do
  ofExcept (sdk.setBytecode bytecode)
  ofExcept (sdk.setGas gasLim)
  let addrA ← callToSolidityAddress sdk (accountVal g.aliceId)
  ofExcept (sdk.addAddress addrA)
  let addrB ← callToSolidityAddress sdk (accountVal g.bobId)
  ofExcept (sdk.addAddress addrB)
  let addrC ← callToSolidityAddress sdk (.account g.operatorId)
  ofExcept (sdk.addAddress addrC)
  emit (.contractCreate bytecode gasLim [addrA, addrB, addrC])
  let contractCreateSubmit ← ofExcept (ledger.createContract bytecode gasLim [addrA, addrB, addrC])
  emit (.receiptRequested contractCreateSubmit.transactionId)
  let contractCreateRx ← ofExcept (ledger.getReceipt contractCreateSubmit)
  pure contractCreateRx.contractId

/-- The loop `for (let v = 0; v < expectedVars.length; v++)` of `getSettings`, from
index `v` with the array `results` built so far. -/
def getSettingsLoop (queryResult : Result) (expectedVars : List String) (v : Nat)
    (results : List (Option Field)) : List (Option Field) :=
  if h : v < expectedVars.length then
    getSettingsLoop queryResult expectedVars (v + 1)
      (results ++ [queryResult.get expectedVars[v]])
  else results
termination_by expectedVars.length - v

/-- Function `getSettings(fcnName, ...expectedVars)`; an element `none` of the
returned array is `undefined`. -/
def getSettings (g : Globals) (ledger : Ledger) (fcnName : String)
    (expectedVars : List String) : Run (List (Option Field)) := do
  let iface ← g.getIface "encodeFunctionData"
  let encodedCommand ← ofExcept (iface.encodeFunctionData fcnName [])
  emit (.log ["Encoded command:", encodedCommand])
  let payload := bufferFromHex (encodedCommand.drop 2)
  emit (.contractCall g.contractId payload)
  let contractCall ← ofExcept (ledger.callContract g.contractId payload)
  let queryResult ← ofExcept (iface.decodeFunctionResult fcnName contractCall)
  pure (getSettingsLoop queryResult expectedVars 0 [])

/-- How `console.log` prints an array of strings. -/
def showArray (items : List String) : String :=
  "[" ++ ", ".intercalate items ++ "]"

/-- Function `contractExecuteFcn(cId, gasLim, fcnName, params, amountHbar)` of the test
file; the result is the array `[receipt, contractResults, record]` with `none` for an
`undefined` second element. -/
def contractExecuteFcn (g : Globals) (ledger : Ledger) (cId : EntityId) (gasLim : Nat)
    (fcnName : String) (params : List String) (amountHbar : Nat) :
    Run (Receipt × Option Result × Record) := do
  emit (.log ["Calling", fcnName, "with params", showArray params])
  let iface ← g.getIface "encodeFunctionData"
  let encodedCommand ← ofExcept (iface.encodeFunctionData fcnName params)
  emit (.log ["Encoded command:", encodedCommand])
  let payload := bufferFromHex (encodedCommand.drop 2)
  emit (.contractExecute cId gasLim payload amountHbar)
  let contractExecuteTx ← ofExcept (ledger.executeContract cId gasLim payload amountHbar)
  emit (.receiptRequested contractExecuteTx.transactionId)
  let contractExecuteRx ← ofExcept (ledger.getReceipt contractExecuteTx)
  emit (.recordRequested contractExecuteTx.transactionId)
  let record ← ofExcept (ledger.getRecord contractExecuteTx)
  let contractResults ← tryCatch
    (do
      let bytes ← record.resultBytes
      let decoded ← ofExcept (iface.decodeFunctionResult fcnName bytes)
      pure (some decoded))
    (fun e => do
      if e.data = some "0x" then
        emit (.log [contractExecuteTx.transactionId,
          "No data returned from contract - check the call"])
      else do
        emit (.log ["Error", contractExecuteTx.transactionId, e.message])
        let bytes ← record.resultBytes
        let parsed ← ofExcept (iface.parseError bytes)
        emit (.log [showNullable parsed])
      pure none)
  pure (contractExecuteRx, contractResults, record)

/-- Entry of the `logs` array of a mirror-node answer. -/
structure MirrorLog where
  data : String
  topics : List String
  block_number : Nat
  transaction_hash : String
  deriving DecidableEq, Repr

/-- Document `response.data` of the mirror node; `logs` is `none` when the document
has no `logs` array. -/
structure MirrorResponse where
  logs : Option (List MirrorLog)
  deriving DecidableEq, Repr

/-- Call `field.startsWith('0x')`. -/
def startsWith0x (field : String) : Bool :=
  match field.toList with
  | '0' :: 'x' :: _ => true
  | _ => false

/-- Lines 343 to 349: the text printed for one event argument. -/
def renderField (sdk : Sdk) : Field → Run String
  | .str field =>
    if startsWith0x field then do
      let account ← ofExcept (sdk.fromSolidityAddress field)
      pure account.toString
    else pure field
  | .other shown => pure shown

/-- The loop `for (let f = 0; f < event.args.length; f++)` on `args` from index `f` with
the line `outputStr` built so far. -/
def renderArgs (sdk : Sdk) (args : List Field) (f : Nat) (outputStr : String) : Run String :=
  if h : f < args.length then do
    let output ← renderField sdk args[f]
    let output := if f = 0 then output else " : " ++ output
    renderArgs sdk args (f + 1) (outputStr ++ output)
  else pure outputStr
termination_by args.length - f

/-- The callback given to `jsonResponse.logs.forEach`. -/
def printLog (g : Globals) (sdk : Sdk) (log : MirrorLog) : Run Unit :=
  if log.data = "0x" then pure ()
  else do
    let iface ← g.getIface "parseLog"
    let event ← ofExcept (iface.parseLog log.topics log.data)
    let outputStr := "Block: " ++ Nat.repr log.block_number
      ++ " : Tx Hash: " ++ log.transaction_hash
      ++ " : Event: " ++ event.name ++ " : "
    let outputStr ← renderArgs sdk event.args 0 outputStr
    emit (.log [outputStr])

/-- Method `forEach` of an array: the callback on each entry in turn. -/
def forEach {α : Type} (callback : α → Run Unit) : List α → Run Unit
  | [] => pure ()
  | entry :: rest => do
    callback entry
    forEach callback rest

/-- How a template literal prints a variable that may be unassigned. -/
def showUndefinable : Option String → String
  | some s => s
  | none => "undefined"

/-- The mirror-node address queried for a contract. -/
def mirrorUrl (baseUrl : Option String) (cId : EntityId) : String :=
  showUndefinable baseUrl ++ "/api/v1/contracts/" ++ cId.toString
    ++ "/results/logs?order=desc&limit=1"

/-- Function `checkLastMirrorEvent()`; `mirror` is what `axios.get` resolves or rejects
with.  The chain `.then(...).catch(...)` is a `try` around the request and the `then`
callback. -/
def checkLastMirrorEvent (g : Globals) (sdk : Sdk)
    (mirror : String → Except JsError MirrorResponse) : Run Unit := do
  let cId ← match g.contractId with
    | some cId => pure cId
    | none => throwJs (typeError "toString")
  let url := mirrorUrl g.baseUrl cId
  emit (.httpGet url)
  tryCatch
    (do
      let jsonResponse ← ofExcept (mirror url)
      let logs ← match jsonResponse.logs with
        | some logs => pure logs
        | none => throwJs (typeError "forEach")
      forEach (printLog g sdk) logs)
    (fun err => emit (.logError err))

end EscrowTest

/-! ## The assertions of the test file on the contract identity and on the status -/

namespace EscrowTest

/-- Character classes that occur in `addressRegex`: `\d`, `[1-9]` and the escaped dot.
None of them holds a letter, so the flag `i` changes nothing. -/
inductive CharClass where
  | digit
  | nonZeroDigit
  | dot
  deriving DecidableEq, Repr

/-- Whether a character belongs to a class. -/
def CharClass.test : CharClass → Char → Bool
  | .digit, c => decide ('0' ≤ c ∧ c ≤ '9')
  | .nonZeroDigit, c => decide ('1' ≤ c ∧ c ≤ '9')
  | .dot, c => c == '.'

/-- Terms of `addressRegex`: a class, or a class under the greedy quantifier `+`. -/
inductive Item where
  | one (c : CharClass)
  | oneOrMore (c : CharClass)
  deriving DecidableEq, Repr

/-- Backtracking match of a sequence of terms at the start of the input: the input left
after the first match in the order a JavaScript engine tries them, `+` taking as many
characters as it can before giving one back. -/
def matchHere : List Item → List Char → Option (List Char)
  | [], input => some input
  | .one _ :: _, [] => none
  | .one c :: items, ch :: input =>
    if c.test ch then matchHere items input else none
  | .oneOrMore _ :: _, [] => none
  | .oneOrMore c :: items, ch :: input =>
    if c.test ch then
      match matchHere (.oneOrMore c :: items) input with
      | some rest => some rest
      | none => matchHere items input
    else none

/-- Search of the leftmost position where the terms match: the matched text. -/
def execFrom (items : List Item) : List Char → Option (List Char)
  | [] =>
    match matchHere items [] with
    | some _ => some []
    | none => none
  | ch :: input =>
    match matchHere items (ch :: input) with
    | some rest => some ((ch :: input).take ((ch :: input).length - rest.length))
    | none => execFrom items input

/-- The constant `addressRegex = /(\d+\.\d+\.[1-9]\d+)/i`: six terms inside one
capture group. -/
def addressRegex : List Item :=
  [.oneOrMore .digit, .one .dot, .oneOrMore .digit, .one .dot, .one .nonZeroDigit,
    .oneOrMore .digit]

/-- Call `text.match(addressRegex)`: `none` is `null`, otherwise the array of the whole
match and of the text of the one capture group, which encloses the whole pattern. -/
def stringMatch (text : String) : Option (List String) :=
  match execFrom addressRegex text.toList with
  | some matched => some [String.mk matched, String.mk matched]
  | none => none

/-- Line 102: the value of `contractId.toString().match(addressRegex).length == 2`, or
the `TypeError` of reading `length` of `null`. -/
def matchLengthIsTwo (contractId : EntityId) : Except JsError Bool :=
  match stringMatch contractId.toString with
  | some found => .ok (found.length == 2)
  | none => .error ⟨"TypeError: Cannot read properties of null (reading 'length')", none⟩

/-- The comparison `status.toString() == 'SUCESS'` of lines 125 and 180. -/
def statusIsSucess (status : String) : Bool :=
  status == "SUCESS"

/-- Assertion `expect(value).to.be.true` of chai. -/
def expectTrue (value : Bool) : Run Unit :=
  if value then pure ()
  else throwJs ⟨"AssertionError: expected false to be true", none⟩

/-- Lines 124 to 125, and again 179 to 180: Alice funds the escrow with 10 hbar and the
status of the receipt is compared with `'SUCESS'`. -/
def fundAndExpect (g : Globals) (ledger : Ledger) (cId : EntityId) : Run Unit := do
  let results ← contractExecuteFcn g ledger cId 200000 "fundEscrow" [] 10
  expectTrue (statusIsSucess results.1.status)

end EscrowTest

/-! ## Concrete collaborators

A concrete SDK, ledger and ABI codec on which runs can be evaluated.  Entity
identities are read and printed as `shard.realm.num`; every other text is rejected,
`undefined` included. -/

/-- Decimal value of the digits read so far, `none` on a character that is no digit. -/
def readDecimal : List Char → Nat → Option Nat
  | [], acc => some acc
  | c :: rest, acc =>
    if '0' ≤ c ∧ c ≤ '9' then readDecimal rest (10 * acc + (c.toNat - '0'.toNat)) else none

/-- Split a list of characters at the first dot. -/
def splitDot : List Char → List Char × Option (List Char)
  | [] => ([], none)
  | c :: rest =>
    if c = '.' then ([], some rest)
    else ((c :: (splitDot rest).1), (splitDot rest).2)

/-- Non-empty run of decimal digits. -/
def readNumber (cs : List Char) : Option Nat :=
  if cs = [] then none else readDecimal cs 0

/-- Read `shard.realm.num`. -/
def parseEntityId (text : String) : Option EntityId :=
  match splitDot text.toList with
  | (a, some rest) =>
    match splitDot rest with
    | (b, some c) =>
      match readNumber a, readNumber b, readNumber c with
      | some shard, some realm, some num => some ⟨shard, realm, num⟩
      | _, _, _ => none
    | _ => none
  | _ => none

/-- Hexadecimal digits of a number, most significant first, padded to a width. -/
def hexPadded (width n : Nat) : String :=
  let digits := Nat.toDigits 16 n
  String.mk (List.replicate (width - digits.length) '0' ++ digits)

/-- Big-endian value of a list of bytes. -/
def bytesValue (bytes : List Nat) : Nat :=
  bytes.foldl (fun acc b => 256 * acc + b) 0

/-- A concrete SDK. -/
def sampleSdk : Sdk where
  toUpperCase text := String.mk (text.toList.map Char.toUpper)
  accountIdFromString text :=
    match parseEntityId text with
    | some a => .ok a
    | none => .error ⟨"failed to parse entity id: " ++ text, none⟩
  contractIdFromString
    | some text =>
      match parseEntityId text with
      | some c => .ok (some c)
      | none => .error ⟨"failed to parse entity id: " ++ text, none⟩
    | none => .error ⟨"failed to parse entity id: undefined", none⟩
  toSolidityAddress a := hexPadded 8 a.shard ++ hexPadded 16 a.realm ++ hexPadded 16 a.num
  fromSolidityAddress address :=
    let digits := match address.toList with
      | '0' :: 'x' :: rest => rest
      | all => all
    let bytes := hexDecode digits
    if digits.length = 40 ∧ bytes.length = 20 then
      .ok ⟨bytesValue (bytes.take 4), bytesValue ((bytes.drop 4).take 8), bytesValue (bytes.drop 12)⟩
    else .error ⟨"Invalid hex encoded solidity address length", none⟩
  setBytecode _ := .ok ()
  setGas _ := .ok ()
  addAddress _ := .ok ()

/-- A ledger that accepts every operation; a creation yields contract `0.0.5005`. -/
def sampleLedger : Ledger where
  createContract _ _ _ := .ok ⟨"0.0.2@1.0"⟩
  executeContract _ _ _ _ := .ok ⟨"0.0.2@2.0"⟩
  callContract _ _ := .ok [0, 1]
  getReceipt _ := .ok ⟨"SUCCESS", some ⟨0, 0, 5005⟩⟩
  getRecord _ := .ok ⟨some []⟩

/-- A codec for a contract whose calls return nothing: decoding an empty payload
fails with `data` equal to `0x`, and no error of the ABI matches. -/
def sampleInterface : Interface where
  encodeFunctionData _ _ := .ok "0x86d1a69f"
  decodeFunctionResult _ bytes :=
    if bytes = [] then .error ⟨"call revert exception", some "0x"⟩
    else .ok ⟨[("balance", .other "1000000000")]⟩
  parseError _ := .error ⟨"no matching error", none⟩
  parseLog _ _ := .ok ⟨"Funded", [.str "0x00000000000000000000000000000000000003e9", .other "10"]⟩

/-- Artifact reader that finds the artifact of every contract. -/
def sampleReadAbi : String → Except JsError Interface :=
  fun _ => .ok sampleInterface

/-- A complete configuration for the test network: three wallets on the command line
and a contract identity in the environment. -/
def sampleConfig : Config where
  env := some "test"
  contractName := some "Escrow"
  contractIdEnv := some "0.0.5005"
  operatorId := ⟨0, 0, 2⟩
  args := ["0.0.1001", "0.0.1002", "0.0.1003"]

/-- The configuration of `sampleConfig` without `ENVIRONMENT`. -/
def noEnvConfig : Config where
  env := none
  contractName := some "Escrow"
  contractIdEnv := some "0.0.5005"
  operatorId := ⟨0, 0, 2⟩
  args := ["0.0.1001", "0.0.1002", "0.0.1003"]

/-- A configuration with no contract identity, neither as argument nor in the
environment. -/
def noContractConfig : Config where
  env := some "test"
  contractName := some "Escrow"
  contractIdEnv := none
  operatorId := ⟨0, 0, 2⟩
  args := []

/-- A codec whose ABI does not fit what the contract returns: decoding fails on
out-of-bounds data, and no error of the ABI matches the returned bytes. -/
def mismatchedInterface : Interface where
  encodeFunctionData _ _ := .ok "0x86d1a69f"
  decodeFunctionResult _ _ := .error ⟨"data out-of-bounds", some "0x01"⟩
  parseError _ := .error ⟨"no matching error", none⟩
  parseLog _ _ := .error ⟨"no matching event", none⟩

/-- Module variables of the test file after the deployment test has run. -/
def sampleGlobals : EscrowTest.Globals where
  contractId := some ⟨0, 0, 5005⟩
  aliceId := some ⟨0, 0, 1001⟩
  bobId := some ⟨0, 0, 1002⟩
  operatorId := ⟨0, 0, 2⟩
  iface := some sampleInterface
  baseUrl := some "https://testnet.mirrornode.hedera.com"

/-- A mirror node answering with one empty entry and one event. -/
def sampleMirror : String → Except JsError EscrowTest.MirrorResponse :=
  fun _ => .ok ⟨some [⟨"0x", [], 41, "0xaa"⟩, ⟨"0x0a", ["0x01"], 42, "0xbb"⟩]⟩

/-- Module variables of the test file when the ABI does not fit the contract. -/
def mismatchedGlobals : EscrowTest.Globals where
  contractId := some ⟨0, 0, 5005⟩
  aliceId := some ⟨0, 0, 1001⟩
  bobId := some ⟨0, 0, 1002⟩
  operatorId := ⟨0, 0, 2⟩
  iface := some mismatchedInterface
  baseUrl := some "https://testnet.mirrornode.hedera.com"

/-- A mirror node that cannot be reached. -/
def unreachableMirror : String → Except JsError EscrowTest.MirrorResponse :=
  fun _ => .error ⟨"Network Error", none⟩

/-! ## Vocabulary of the statements -/

/-- A required configuration value is missing: `ENVIRONMENT` is unset, or its
upper-cased value is neither `TEST` nor `MAIN`, or `CONTRACT_NAME` is unset. -/
def ConfigInvalid (sdk : Sdk) (cfg : Config) : Prop :=
  cfg.env = none
    ∨ (∃ env, cfg.env = some env ∧ sdk.toUpperCase env ≠ "TEST" ∧ sdk.toUpperCase env ≠ "MAIN")
    ∨ cfg.contractName = none

/-- The lines that report a configuration problem to the operator. -/
def configReports : List String :=
  ["Environment required, please specify TEST or MAIN in the .env file",
   "Environment required, please specify CONTRACT_NAME for ABI in the .env file",
   "ERROR: Must specify either MAIN or TEST as environment in .env file"]

/-- The line that asks for a contract identity. -/
def contractIdRequired : String :=
  "ContractId required, please specify CONTRACT_ID in the .env file or as an argument"

/-- The informational line for a call that returned no data. -/
def noDataLine : String :=
  "No data returned from contract - check the call"

/-- An argument that looks like a hex-encoded address: a string starting with `0x`. -/
def looksLikeAddress : Field → Bool
  | .str s => EscrowTest.startsWith0x s
  | .other _ => false

/-- The string form of an argument itself. -/
def Field.ownString : Field → String
  | .str s => s
  | .other shown => shown

/-- Decoding or rendering a log entry raises an exception: the entry is not empty and
the interface is unset, or `parseLog` throws, or an argument starting with `0x` is
rejected by `AccountId.fromSolidityAddress`. -/
def EntryFails (g : EscrowTest.Globals) (sdk : Sdk) (log : EscrowTest.MirrorLog) : Prop :=
  log.data ≠ "0x" ∧
    match g.iface with
    | none => True
    | some iface =>
      match iface.parseLog log.topics log.data with
      | .error _ => True
      | .ok event => ∃ field ∈ event.args, looksLikeAddress field = true
          ∧ ∃ err, sdk.fromSolidityAddress field.ownString = .error err

/-! ## Laws of runs -/

section Laws

variable {α β : Type}

theorem bind_eq (m : Run α) (f : α → Run β) : (m >>= f) = Run.bind m f := rfl

theorem pure_eq (a : α) : (pure a : Run α) = ⟨[], .returned a⟩ := rfl

theorem emit_bind (e : Event) (f : Unit → Run β) :
    Run.bind (emit e) f = ⟨e :: (f ()).trace, (f ()).outcome⟩ := rfl

theorem returned_bind (t : List Event) (a : α) (f : α → Run β) :
    Run.bind ⟨t, .returned a⟩ f = ⟨t ++ (f a).trace, (f a).outcome⟩ := rfl

theorem threw_bind (t : List Event) (e : JsError) (f : α → Run β) :
    Run.bind ⟨t, .threw e⟩ f = ⟨t, .threw e⟩ := rfl

theorem exited_bind (t : List Event) (c : Nat) (f : α → Run β) :
    Run.bind ⟨t, .exited c⟩ f = ⟨t, .exited c⟩ := rfl

theorem ofExcept_ok_bind (a : α) (f : α → Run β) :
    Run.bind (ofExcept (.ok a)) f = f a := by
  simp [ofExcept, Run.bind]

theorem ofExcept_error_bind (e : JsError) (f : α → Run β) :
    Run.bind (ofExcept (.error e)) f = ⟨[], .threw e⟩ := rfl

end Laws

/-! ## Properties of `deployEscrow.js` -/

/-- With its fourth parameter `undefined`, `contractDeployFcn` throws before it
performs any step. -/
theorem contractDeployFcn_undefined_walletB (sdk : Sdk) (ledger : Ledger)
    (bytecode gasLim walletA walletC : Val) :
    (DeployEscrow.contractDeployFcn sdk ledger bytecode gasLim walletA .undefined walletC).trace = []
    ∧ ∃ err, (DeployEscrow.contractDeployFcn sdk ledger bytecode gasLim walletA .undefined
        walletC).outcome = .threw err := by
  unfold DeployEscrow.contractDeployFcn
  simp only [bind_eq]
  cases h1 : sdk.setBytecode bytecode <;> cases h2 : sdk.setGas gasLim <;>
    simp [ofExcept_ok_bind, ofExcept_error_bind]
  cases walletA <;> simp [callToSolidityAddress, throwJs, threw_bind, pure_eq, returned_bind]
  cases h3 : sdk.addAddress _ <;> simp [ofExcept_ok_bind, ofExcept_error_bind]

theorem Run.eq_of {α : Type} (m : Run α) {t : List Event} {o : Outcome α}
    (ht : m.trace = t) (ho : m.outcome = o) : m = ⟨t, o⟩ := by
  cases m
  simp_all

/-- The call made by `main`, with three arguments for five parameters, throws before
it performs any step. -/
theorem contractDeployFcn_three_arguments (sdk : Sdk) (ledger : Ledger) (a b c : EntityId) :
    ∃ err, DeployEscrow.contractDeployFcn sdk ledger (.account a) (.account b) (.account c)
      .undefined .undefined = ⟨[], .threw err⟩ := by
  obtain ⟨ht, err, he⟩ := contractDeployFcn_undefined_walletB sdk ledger
    (.account a) (.account b) (.account c) .undefined
  exact ⟨err, Run.eq_of _ ht he⟩

/-- The `contractDeployFcn(bytecode, gasLim)` of the test file, once the accounts are
created, submits one creation with the addresses of Alice, Bob and the operator in
that order, asks for the receipt and returns its contract identity. -/
theorem test_contractDeployFcn_creates (g : EscrowTest.Globals) (sdk : Sdk) (ledger : Ledger)
    (bytecode gasLim : Val) (alice bob : EntityId) (tx : TxResponse) (rx : Receipt)
    (halice : g.aliceId = some alice) (hbob : g.bobId = some bob)
    (hcode : sdk.setBytecode bytecode = .ok ()) (hgas : sdk.setGas gasLim = .ok ())
    (haddr : ∀ address, sdk.addAddress address = .ok ())
    (hcreate : ledger.createContract bytecode gasLim
      [sdk.toSolidityAddress alice, sdk.toSolidityAddress bob,
        sdk.toSolidityAddress g.operatorId] = .ok tx)
    (hrx : ledger.getReceipt tx = .ok rx) :
    EscrowTest.contractDeployFcn g sdk ledger bytecode gasLim
      = ⟨[.contractCreate bytecode gasLim
            [sdk.toSolidityAddress alice, sdk.toSolidityAddress bob,
              sdk.toSolidityAddress g.operatorId],
          .receiptRequested tx.transactionId], .returned rx.contractId⟩ := by
  unfold EscrowTest.contractDeployFcn
  simp [bind_eq, emit_bind, ofExcept_ok_bind, halice, hbob, hcode, hgas, haddr, hcreate, hrx,
    EscrowTest.accountVal, callToSolidityAddress, pure_eq, returned_bind]

/-- C1, as the code behaves: for every run of `deployEscrow.js` with three account
identities on the command line, a valid ENVIRONMENT and CONTRACT_NAME and a yes at
the prompt, `main` reaches the prompt, then throws inside `contractDeployFcn`: no
contract-creation request is submitted and no receipt is requested. -/
theorem deployEscrow_yes_throws_before_creation (sdk : Sdk) (ledger : Ledger) (cfg : Config)
    (arg0 arg1 arg2 env name : String) (a b c : EntityId)
    (hargs : cfg.args = [arg0, arg1, arg2])
    (ha : sdk.accountIdFromString arg0 = .ok a)
    (hb : sdk.accountIdFromString arg1 = .ok b)
    (hc : sdk.accountIdFromString arg2 = .ok c)
    (henv : cfg.env = some env)
    (hvalid : sdk.toUpperCase env = "TEST" ∨ sdk.toUpperCase env = "MAIN")
    (hname : cfg.contractName = some name) :
    Event.prompt "Do you want to deploy the contract?"
        ∈ (DeployEscrow.main sdk ledger cfg true).trace
      ∧ (∀ e ∈ (DeployEscrow.main sdk ledger cfg true).trace, e.isLedgerOp = false)
      ∧ ∃ err, (DeployEscrow.main sdk ledger cfg true).outcome = .threw err := by
  obtain ⟨err, hd⟩ := contractDeployFcn_three_arguments sdk ledger a b c
  unfold DeployEscrow.main
  simp only [bind_eq, hargs, ha, hb, hc, henv, hname, ofExcept_ok_bind, emit_bind]
  by_cases ht : sdk.toUpperCase env = "TEST"
  · simp [ht, bind_eq, emit_bind, hd, threw_bind, Event.isLedgerOp,
      DeployEscrow.confirmAndDeploy]
  · have hm : sdk.toUpperCase env = "MAIN" := by tauto
    simp [ht, hm, bind_eq, emit_bind, hd, threw_bind, Event.isLedgerOp,
      DeployEscrow.confirmAndDeploy]

/-- C1 evaluated on wallets `0.0.1001`, `0.0.1002`, `0.0.1003` on the test network. -/
theorem deployEscrow_yes_throws_before_creation_witness :
    Event.prompt "Do you want to deploy the contract?"
        ∈ (DeployEscrow.main sampleSdk sampleLedger sampleConfig true).trace
      ∧ (∀ e ∈ (DeployEscrow.main sampleSdk sampleLedger sampleConfig true).trace,
          e.isLedgerOp = false)
      ∧ ∃ err, (DeployEscrow.main sampleSdk sampleLedger sampleConfig true).outcome
          = .threw err :=
  deployEscrow_yes_throws_before_creation sampleSdk sampleLedger sampleConfig
    "0.0.1001" "0.0.1002" "0.0.1003" "test" "Escrow" ⟨0, 0, 1001⟩ ⟨0, 0, 1002⟩ ⟨0, 0, 1003⟩
    rfl rfl rfl rfl rfl (Or.inl (by decide)) rfl

/-! ## The confirmation prompt answered no -/

theorem releaseFunds_main_invalid (sdk : Sdk) (readAbi : String → Except JsError Interface)
    (ledger : Ledger) (cfg : Config) (answer : Bool) (h : ConfigInvalid sdk cfg) :
    ∃ msg ∈ configReports, ReleaseFunds.main sdk readAbi ledger cfg answer
      = ⟨[.log ["Using ENIVRONMENT:", showNullable cfg.env], .log [msg]], .returned ()⟩ := by
  unfold ReleaseFunds.main
  simp only [bind_eq, emit_bind]
  cases henv : cfg.env with
  | none => exact ⟨_, by simp [configReports], rfl⟩
  | some env =>
    cases hname : cfg.contractName with
    | none => exact ⟨_, by simp [configReports], rfl⟩
    | some name =>
      rcases h with h | ⟨env', he, ht, hm⟩ | h
      · simp [henv] at h
      · rw [henv] at he
        cases he
        refine ⟨"ERROR: Must specify either MAIN or TEST as environment in .env file",
          by simp [configReports], ?_⟩
        simp only [if_neg ht, if_neg hm]
        rfl
      · simp [hname] at h

theorem deployEscrow_main_invalid (sdk : Sdk) (ledger : Ledger) (cfg : Config) (answer : Bool)
    (arg0 arg1 arg2 : String) (a b c : EntityId) (h : ConfigInvalid sdk cfg)
    (hargs : cfg.args = [arg0, arg1, arg2])
    (ha : sdk.accountIdFromString arg0 = .ok a)
    (hb : sdk.accountIdFromString arg1 = .ok b)
    (hc : sdk.accountIdFromString arg2 = .ok c) :
    ∃ msg ∈ configReports, DeployEscrow.main sdk ledger cfg answer
      = ⟨[.log ["Using ENIVRONMENT:", showNullable cfg.env],
          .log ["Using wallets: A", a.toString, "B", b.toString, "C", c.toString],
          .log [msg]], .returned ()⟩ := by
  unfold DeployEscrow.main
  simp only [bind_eq, emit_bind, hargs, ha, hb, hc, ofExcept_ok_bind]
  cases henv : cfg.env with
  | none => exact ⟨_, by simp [configReports], rfl⟩
  | some env =>
    cases hname : cfg.contractName with
    | none => exact ⟨_, by simp [configReports], rfl⟩
    | some name =>
      rcases h with h | ⟨env', he, ht, hm⟩ | h
      · simp [henv] at h
      · rw [henv] at he
        cases he
        refine ⟨"ERROR: Must specify either MAIN or TEST as environment in .env file",
          by simp [configReports], ?_⟩
        simp only [if_neg ht, if_neg hm]
        rfl
      · simp [hname] at h

theorem deployEscrow_main_invalid_quiet (sdk : Sdk) (ledger : Ledger) (cfg : Config)
    (answer : Bool) (h : ConfigInvalid sdk cfg) :
    ∀ e ∈ (DeployEscrow.main sdk ledger cfg answer).trace,
      e.isClientCreation = false ∧ e.isPrompt = false ∧ e.isLedgerOp = false := by
  unfold DeployEscrow.main
  simp only [bind_eq, emit_bind]
  split
  · rename_i arg0 arg1 arg2 hargs
    cases sdk.accountIdFromString arg0 with
    | error err =>
      simp [ofExcept_error_bind, Event.isClientCreation, Event.isPrompt, Event.isLedgerOp]
    | ok a =>
      cases sdk.accountIdFromString arg1 with
      | error err =>
        simp [ofExcept_ok_bind, ofExcept_error_bind, Event.isClientCreation, Event.isPrompt,
          Event.isLedgerOp]
      | ok b =>
        cases sdk.accountIdFromString arg2 with
        | error err =>
          simp [ofExcept_ok_bind, ofExcept_error_bind, Event.isClientCreation, Event.isPrompt,
            Event.isLedgerOp]
        | ok c =>
          simp only [ofExcept_ok_bind, emit_bind]
          cases henv : cfg.env with
          | none => simp [emit, Event.isClientCreation, Event.isPrompt, Event.isLedgerOp]
          | some env =>
            cases hname : cfg.contractName with
            | none => simp [emit, Event.isClientCreation, Event.isPrompt, Event.isLedgerOp]
            | some name =>
              rcases h with h | ⟨env', he, ht, hm⟩ | h
              · simp [henv] at h
              · rw [henv] at he
                cases he
                simp [if_neg ht, if_neg hm, emit, Event.isClientCreation, Event.isPrompt,
                  Event.isLedgerOp]
              · simp [hname] at h
  · simp [bind_eq, emit_bind, processExit, Event.isClientCreation, Event.isPrompt,
      Event.isLedgerOp]

/-- C3: when ENVIRONMENT is missing, or its upper-cased value is neither TEST nor MAIN,
or CONTRACT_NAME is missing, `main` of `releaseFunds.js` prints one of the three
report lines and returns, and `main` of `deployEscrow.js` given three wallet
identities does the same after printing the wallets; neither run creates a ledger
client, shows the prompt or issues a ledger operation. -/
theorem invalid_config_reported_without_ledger (sdk : Sdk)
    (readAbi : String → Except JsError Interface) (ledger : Ledger) (cfg : Config)
    (answer : Bool) (h : ConfigInvalid sdk cfg) :
    (∃ msg ∈ configReports, (ReleaseFunds.main sdk readAbi ledger cfg answer).trace
        = [.log ["Using ENIVRONMENT:", showNullable cfg.env], .log [msg]])
    ∧ (ReleaseFunds.main sdk readAbi ledger cfg answer).outcome = .returned ()
    ∧ (∀ e ∈ (ReleaseFunds.main sdk readAbi ledger cfg answer).trace,
        e.isClientCreation = false ∧ e.isPrompt = false ∧ e.isLedgerOp = false)
    ∧ (∀ e ∈ (DeployEscrow.main sdk ledger cfg answer).trace,
        e.isClientCreation = false ∧ e.isPrompt = false ∧ e.isLedgerOp = false)
    ∧ (∀ arg0 arg1 arg2 a b c, cfg.args = [arg0, arg1, arg2] →
        sdk.accountIdFromString arg0 = .ok a → sdk.accountIdFromString arg1 = .ok b →
        sdk.accountIdFromString arg2 = .ok c →
        (∃ msg ∈ configReports, (DeployEscrow.main sdk ledger cfg answer).trace
          = [.log ["Using ENIVRONMENT:", showNullable cfg.env],
             .log ["Using wallets: A", a.toString, "B", b.toString, "C", c.toString],
             .log [msg]])
        ∧ (DeployEscrow.main sdk ledger cfg answer).outcome = .returned ()) := by
  obtain ⟨msg, hmsg, hrun⟩ := releaseFunds_main_invalid sdk readAbi ledger cfg answer h
  refine ⟨⟨msg, hmsg, by rw [hrun]⟩, by rw [hrun], ?_,
    deployEscrow_main_invalid_quiet sdk ledger cfg answer h, ?_⟩
  · rw [hrun]
    simp [Event.isClientCreation, Event.isPrompt, Event.isLedgerOp]
  · intro arg0 arg1 arg2 a b c hargs ha hb hc
    obtain ⟨msg', hmsg', hrun'⟩ :=
      deployEscrow_main_invalid sdk ledger cfg answer arg0 arg1 arg2 a b c h hargs ha hb hc
    exact ⟨⟨msg', hmsg', by rw [hrun']⟩, by rw [hrun']⟩

/-- C3 evaluated on the sample configuration without ENVIRONMENT. -/
theorem invalid_config_reported_without_ledger_witness :
    ConfigInvalid sampleSdk noEnvConfig
      ∧ (ReleaseFunds.main sampleSdk sampleReadAbi sampleLedger noEnvConfig true).outcome
        = .returned ()
      ∧ (DeployEscrow.main sampleSdk sampleLedger noEnvConfig true).outcome = .returned () :=
  ⟨Or.inl rfl,
   (invalid_config_reported_without_ledger sampleSdk sampleReadAbi sampleLedger noEnvConfig true
      (Or.inl rfl)).2.1,
   ((invalid_config_reported_without_ledger sampleSdk sampleReadAbi sampleLedger noEnvConfig true
      (Or.inl rfl)).2.2.2.2 "0.0.1001" "0.0.1002" "0.0.1003" ⟨0, 0, 1001⟩ ⟨0, 0, 1002⟩
      ⟨0, 0, 1003⟩ rfl rfl rfl rfl).2⟩

/-- C5, as the code behaves: in a run of `releaseFunds.js` with a valid configuration
where the command line has not exactly one argument and CONTRACT_ID is unset,
`ContractId.fromString(undefined)` is called; when the SDK rejects it, that error
leaves `main`: the line asking for a contract identity is not printed and
`process.exit(1)` is not called. -/
theorem releaseFunds_missing_contractId_throws (sdk : Sdk)
    (readAbi : String → Except JsError Interface) (ledger : Ledger) (cfg : Config)
    (answer : Bool) (env name : String) (iface : Interface) (err : JsError)
    (henv : cfg.env = some env)
    (hvalid : sdk.toUpperCase env = "TEST" ∨ sdk.toUpperCase env = "MAIN")
    (hname : cfg.contractName = some name)
    (habi : readAbi (ReleaseFunds.artifactPath name) = .ok iface)
    (hargs : cfg.args.length ≠ 1) (hid : cfg.contractIdEnv = none)
    (hsdk : sdk.contractIdFromString none = .error err) :
    (ReleaseFunds.main sdk readAbi ledger cfg answer).outcome = .threw err
      ∧ Event.log [contractIdRequired] ∉ (ReleaseFunds.main sdk readAbi ledger cfg answer).trace
      ∧ (∀ e ∈ (ReleaseFunds.main sdk readAbi ledger cfg answer).trace, e.isPrompt = false) := by
  have hrel : ReleaseFunds.confirmAndRelease sdk readAbi ledger cfg answer name
      = ⟨[.operatorSet cfg.operatorId, .log ["Using Operator:", cfg.operatorId.toString],
          .fileRead (ReleaseFunds.artifactPath name)], .threw err⟩ := by
    unfold ReleaseFunds.confirmAndRelease
    simp only [bind_eq, emit_bind, habi, ofExcept_ok_bind, hid, hsdk]
    split
    · rename_i arg0 h1
      simp [h1] at hargs
    · rfl
  unfold ReleaseFunds.main
  simp only [bind_eq, emit_bind, henv, hname]
  by_cases ht : sdk.toUpperCase env = "TEST"
  · simp [if_pos ht, bind_eq, emit_bind, hrel, Event.isPrompt, contractIdRequired]
  · have hm : sdk.toUpperCase env = "MAIN" := by tauto
    simp [if_neg ht, if_pos hm, bind_eq, emit_bind, hrel, Event.isPrompt, contractIdRequired]

/-- C5 evaluated on a configuration with no argument and no CONTRACT_ID. -/
theorem releaseFunds_missing_contractId_throws_witness :
    (ReleaseFunds.main sampleSdk sampleReadAbi sampleLedger noContractConfig true).outcome
        = .threw ⟨"failed to parse entity id: undefined", none⟩
      ∧ Event.log [contractIdRequired]
        ∉ (ReleaseFunds.main sampleSdk sampleReadAbi sampleLedger noContractConfig true).trace
      ∧ (∀ e ∈ (ReleaseFunds.main sampleSdk sampleReadAbi sampleLedger noContractConfig
          true).trace, e.isPrompt = false) :=
  releaseFunds_missing_contractId_throws sampleSdk sampleReadAbi sampleLedger noContractConfig
    true "test" "Escrow" sampleInterface ⟨"failed to parse entity id: undefined", none⟩
    rfl (Or.inl (by decide)) rfl rfl (by decide) rfl rfl

/-! ## Decoding the result of a state-changing call -/

/-- C6: when receipt and record were obtained and decoding the returned payload fails
with `data` equal to `0x`, `contractExecuteFcn` (of `releaseFunds.js` and of the test
file) does not throw: after the record its only step is to print the transaction
identity and `No data returned from contract - check the call`, and it returns
`[receipt, undefined, record]` with the receipt and record of the ledger. -/
theorem contractExecuteFcn_no_data (g : EscrowTest.Globals) (iface : Interface)
    (ledger : Ledger) (cId : EntityId) (gasLim : Nat) (fcnName : String)
    (params : List String) (amountHbar : Nat) (cmd : String) (tx : TxResponse)
    (rx : Receipt) (record : Record) (bytes : List Nat) (e : JsError)
    (hiface : g.iface = some iface)
    (henc : iface.encodeFunctionData fcnName params = .ok cmd)
    (hexec : ledger.executeContract cId gasLim (bufferFromHex (cmd.drop 2)) amountHbar = .ok tx)
    (hrx : ledger.getReceipt tx = .ok rx)
    (hrec : ledger.getRecord tx = .ok record)
    (hbytes : record.contractFunctionResult = some bytes)
    (hdec : iface.decodeFunctionResult fcnName bytes = .error e)
    (hdata : e.data = some "0x") :
    ReleaseFunds.contractExecuteFcn iface ledger cId gasLim fcnName params amountHbar
        = ⟨[.contractExecute cId gasLim (bufferFromHex (cmd.drop 2)) amountHbar,
            .receiptRequested tx.transactionId, .recordRequested tx.transactionId,
            .log [tx.transactionId, noDataLine]],
           .returned (rx, none, record)⟩
      ∧ EscrowTest.contractExecuteFcn g ledger cId gasLim fcnName params amountHbar
        = ⟨[.log ["Calling", fcnName, "with params", EscrowTest.showArray params],
            .log ["Encoded command:", cmd],
            .contractExecute cId gasLim (bufferFromHex (cmd.drop 2)) amountHbar,
            .receiptRequested tx.transactionId, .recordRequested tx.transactionId,
            .log [tx.transactionId, noDataLine]],
           .returned (rx, none, record)⟩ := by
  constructor
  · unfold ReleaseFunds.contractExecuteFcn
    simp [bind_eq, emit_bind, ofExcept_ok_bind, henc, hexec, hrx, hrec, Record.resultBytes,
      hbytes, hdec, pure_eq, returned_bind, ofExcept, tryCatch, threw_bind, hdata, emit,
      noDataLine]
  · unfold EscrowTest.contractExecuteFcn
    simp [bind_eq, emit_bind, ofExcept_ok_bind, henc, hexec, hrx, hrec, Record.resultBytes,
      hbytes, hdec, pure_eq, returned_bind, ofExcept, tryCatch, threw_bind, hdata, emit,
      noDataLine, EscrowTest.Globals.getIface, hiface]

/-- C6 evaluated on a `release` call whose record carries an empty payload. -/
theorem contractExecuteFcn_no_data_witness :
    (ReleaseFunds.contractExecuteFcn sampleInterface sampleLedger ⟨0, 0, 5005⟩ 200000
        "release" [] 0).outcome
        = .returned (⟨"SUCCESS", some ⟨0, 0, 5005⟩⟩, none, ⟨some []⟩)
      ∧ (EscrowTest.contractExecuteFcn sampleGlobals sampleLedger ⟨0, 0, 5005⟩ 200000
        "release" [] 0).outcome
        = .returned (⟨"SUCCESS", some ⟨0, 0, 5005⟩⟩, none, ⟨some []⟩) :=
  ⟨congrArg Run.outcome
      (contractExecuteFcn_no_data sampleGlobals sampleInterface sampleLedger ⟨0, 0, 5005⟩
        200000 "release" [] 0 "0x86d1a69f" ⟨"0.0.2@2.0"⟩ ⟨"SUCCESS", some ⟨0, 0, 5005⟩⟩
        ⟨some []⟩ [] ⟨"call revert exception", some "0x"⟩ rfl rfl rfl rfl rfl rfl rfl rfl).1,
   congrArg Run.outcome
      (contractExecuteFcn_no_data sampleGlobals sampleInterface sampleLedger ⟨0, 0, 5005⟩
        200000 "release" [] 0 "0x86d1a69f" ⟨"0.0.2@2.0"⟩ ⟨"SUCCESS", some ⟨0, 0, 5005⟩⟩
        ⟨some []⟩ [] ⟨"call revert exception", some "0x"⟩ rfl rfl rfl rfl rfl rfl rfl rfl).2⟩

/-- C7, as the code behaves: when receipt and record were obtained and decoding fails
with `data` other than `0x`, `contractExecuteFcn` (of `releaseFunds.js` and of the
test file) prints the raw error and then calls `iface.parseError` inside the `catch`
block.  When `parseError` returns, its result is printed and
`[receipt, undefined, record]` is returned; when `parseError` itself throws, that
exception leaves `contractExecuteFcn` and nothing is returned. -/
theorem contractExecuteFcn_decode_failure (g : EscrowTest.Globals) (iface : Interface)
    (ledger : Ledger) (cId : EntityId) (gasLim : Nat) (fcnName : String)
    (params : List String) (amountHbar : Nat) (cmd : String) (tx : TxResponse)
    (rx : Receipt) (record : Record) (bytes : List Nat) (e : JsError)
    (hiface : g.iface = some iface)
    (henc : iface.encodeFunctionData fcnName params = .ok cmd)
    (hexec : ledger.executeContract cId gasLim (bufferFromHex (cmd.drop 2)) amountHbar = .ok tx)
    (hrx : ledger.getReceipt tx = .ok rx)
    (hrec : ledger.getRecord tx = .ok record)
    (hbytes : record.contractFunctionResult = some bytes)
    (hdec : iface.decodeFunctionResult fcnName bytes = .error e)
    (hdata : e.data ≠ some "0x") :
    (∀ parsed, iface.parseError bytes = .ok parsed →
      ReleaseFunds.contractExecuteFcn iface ledger cId gasLim fcnName params amountHbar
          = ⟨[.contractExecute cId gasLim (bufferFromHex (cmd.drop 2)) amountHbar,
              .receiptRequested tx.transactionId, .recordRequested tx.transactionId,
              .log ["Error", tx.transactionId, e.message], .log [showNullable parsed]],
             .returned (rx, none, record)⟩
        ∧ (EscrowTest.contractExecuteFcn g ledger cId gasLim fcnName params amountHbar).outcome
          = .returned (rx, none, record))
    ∧ (∀ err, iface.parseError bytes = .error err →
      ReleaseFunds.contractExecuteFcn iface ledger cId gasLim fcnName params amountHbar
          = ⟨[.contractExecute cId gasLim (bufferFromHex (cmd.drop 2)) amountHbar,
              .receiptRequested tx.transactionId, .recordRequested tx.transactionId,
              .log ["Error", tx.transactionId, e.message]],
             .threw err⟩
        ∧ (EscrowTest.contractExecuteFcn g ledger cId gasLim fcnName params amountHbar).outcome
          = .threw err) := by
  refine ⟨fun parsed hp => ⟨?_, ?_⟩, fun err hp => ⟨?_, ?_⟩⟩
  · unfold ReleaseFunds.contractExecuteFcn
    simp [bind_eq, emit_bind, ofExcept_ok_bind, henc, hexec, hrx, hrec, Record.resultBytes,
      hbytes, hdec, pure_eq, returned_bind, ofExcept, tryCatch, threw_bind, hdata, emit, hp]
  · unfold EscrowTest.contractExecuteFcn
    simp [bind_eq, emit_bind, ofExcept_ok_bind, henc, hexec, hrx, hrec, Record.resultBytes,
      hbytes, hdec, pure_eq, returned_bind, ofExcept, tryCatch, threw_bind, hdata, emit, hp,
      EscrowTest.Globals.getIface, hiface]
  · unfold ReleaseFunds.contractExecuteFcn
    simp [bind_eq, emit_bind, ofExcept_ok_bind, henc, hexec, hrx, hrec, Record.resultBytes,
      hbytes, hdec, pure_eq, returned_bind, ofExcept, tryCatch, threw_bind, hdata, emit, hp]
  · unfold EscrowTest.contractExecuteFcn
    simp [bind_eq, emit_bind, ofExcept_ok_bind, henc, hexec, hrx, hrec, Record.resultBytes,
      hbytes, hdec, pure_eq, returned_bind, ofExcept, tryCatch, threw_bind, hdata, emit, hp,
      EscrowTest.Globals.getIface, hiface]

/-- C7 evaluated on a `release` call decoded against an ABI that does not fit: the
error of `parseError` leaves `contractExecuteFcn`. -/
theorem contractExecuteFcn_decode_failure_witness :
    (ReleaseFunds.contractExecuteFcn mismatchedInterface sampleLedger ⟨0, 0, 5005⟩ 200000
        "release" [] 0).outcome = .threw ⟨"no matching error", none⟩
      ∧ (EscrowTest.contractExecuteFcn mismatchedGlobals sampleLedger ⟨0, 0, 5005⟩ 200000
        "release" [] 0).outcome = .threw ⟨"no matching error", none⟩ :=
  ⟨congrArg Run.outcome
      (((contractExecuteFcn_decode_failure mismatchedGlobals mismatchedInterface sampleLedger
        ⟨0, 0, 5005⟩ 200000 "release" [] 0 "0x86d1a69f" ⟨"0.0.2@2.0"⟩
        ⟨"SUCCESS", some ⟨0, 0, 5005⟩⟩ ⟨some []⟩ [] ⟨"data out-of-bounds", some "0x01"⟩
        rfl rfl rfl rfl rfl rfl rfl (by decide)).2 ⟨"no matching error", none⟩ rfl).1),
   ((contractExecuteFcn_decode_failure mismatchedGlobals mismatchedInterface sampleLedger
        ⟨0, 0, 5005⟩ 200000 "release" [] 0 "0x86d1a69f" ⟨"0.0.2@2.0"⟩
        ⟨"SUCCESS", some ⟨0, 0, 5005⟩⟩ ⟨some []⟩ [] ⟨"data out-of-bounds", some "0x01"⟩
        rfl rfl rfl rfl rfl rfl rfl (by decide)).2 ⟨"no matching error", none⟩ rfl).2⟩

/-! ## The read-only query -/

theorem getSettingsLoop_eq (queryResult : Result) (expectedVars : List String) :
    ∀ (n v : Nat) (results : List (Option Field)), expectedVars.length - v = n →
      EscrowTest.getSettingsLoop queryResult expectedVars v results
        = results ++ (expectedVars.drop v).map queryResult.get := by
  intro n
  induction n with
  | zero =>
    intro v results h
    rw [EscrowTest.getSettingsLoop]
    have hv : ¬ v < expectedVars.length := by omega
    rw [dif_neg hv, List.drop_of_length_le (by omega)]
    simp
  | succ n ih =>
    intro v results h
    rw [EscrowTest.getSettingsLoop]
    have hv : v < expectedVars.length := by omega
    rw [dif_pos hv, ih (v + 1) _ (by omega), List.drop_eq_getElem_cons hv]
    simp only [List.map_cons, List.append_assoc, List.singleton_append]

/-- C8: for every function name and every list of field names, when encoding, query
and decoding succeed, `getSettings` prints the encoded command, issues one read-only
query and no other ledger operation, and returns as many elements as names were
given, the i-th being the property of the decoded result named by the i-th name
(`undefined` when the result has no such property). -/
theorem getSettings_returns_named_fields (g : EscrowTest.Globals) (ledger : Ledger)
    (fcnName : String) (expectedVars : List String) (iface : Interface) (cmd : String)
    (bytes : List Nat) (queryResult : Result)
    (hiface : g.iface = some iface)
    (henc : iface.encodeFunctionData fcnName [] = .ok cmd)
    (hcall : ledger.callContract g.contractId (bufferFromHex (cmd.drop 2)) = .ok bytes)
    (hdec : iface.decodeFunctionResult fcnName bytes = .ok queryResult) :
    ∃ results, EscrowTest.getSettings g ledger fcnName expectedVars
        = ⟨[.log ["Encoded command:", cmd],
            .contractCall g.contractId (bufferFromHex (cmd.drop 2))], .returned results⟩
      ∧ results.length = expectedVars.length
      ∧ (∀ i (h : i < expectedVars.length),
          results[i]? = some (queryResult.get expectedVars[i]))
      ∧ (∀ i (h : i < expectedVars.length),
          expectedVars[i] ∉ queryResult.named.map Prod.fst → results[i]? = some none) := by
  have hpoint : ∀ i (h : i < expectedVars.length),
      (expectedVars.map queryResult.get)[i]? = some (queryResult.get expectedVars[i]) := by
    intro i h
    simp [List.getElem?_eq_getElem h]
  refine ⟨expectedVars.map queryResult.get, ?_, by simp, hpoint, ?_⟩
  · unfold EscrowTest.getSettings
    simp [bind_eq, emit_bind, ofExcept_ok_bind, EscrowTest.Globals.getIface, hiface, henc,
      hcall, hdec, pure_eq, returned_bind, getSettingsLoop_eq queryResult expectedVars _ 0 [] rfl]
  · intro i h habsent
    rw [hpoint i h]
    have hnone : queryResult.get expectedVars[i] = none := by
      unfold Result.get
      rw [List.lookup_eq_none_iff]
      intro p hp
      simp only [bne_iff_ne, ne_eq]
      intro hkey
      apply habsent
      simp only [List.mem_map]
      exact ⟨p, hp, hkey.symm⟩
    rw [hnone]

/-- C8 evaluated on `getSettings('isFunded', 'balance', 'missing', 'balance')`. -/
theorem getSettings_returns_named_fields_witness :
    ∃ results, (EscrowTest.getSettings sampleGlobals sampleLedger "isFunded"
        ["balance", "missing", "balance"]).outcome = .returned results
      ∧ results.length = 3
      ∧ results[0]? = some (some (.other "1000000000"))
      ∧ results[1]? = some none
      ∧ results[2]? = some (some (.other "1000000000")) := by
  obtain ⟨results, hrun, hlen, hget, _⟩ :=
    getSettings_returns_named_fields sampleGlobals sampleLedger "isFunded"
      ["balance", "missing", "balance"] sampleInterface "0x86d1a69f" [0, 1]
      ⟨[("balance", .other "1000000000")]⟩ rfl rfl rfl rfl
  exact ⟨results, by rw [hrun], hlen, hget 0 (by decide), hget 1 (by decide),
    hget 2 (by decide)⟩

/-! ## The mirror-node verifier -/

theorem renderField_cases (sdk : Sdk) (field : Field) :
    (∃ text, EscrowTest.renderField sdk field = ⟨[], .returned text⟩)
      ∨ (∃ err, EscrowTest.renderField sdk field = ⟨[], .threw err⟩) := by
  cases field with
  | str text =>
    by_cases h0 : EscrowTest.startsWith0x text = true
    · cases h : sdk.fromSolidityAddress text with
      | ok a =>
        left
        exact ⟨a.toString, by simp [EscrowTest.renderField, h0, h, bind_eq, ofExcept_ok_bind,
          pure_eq]⟩
      | error err =>
        right
        exact ⟨err, by simp [EscrowTest.renderField, h0, h, bind_eq, ofExcept_error_bind]⟩
    · left
      exact ⟨text, by simp [EscrowTest.renderField, h0, pure_eq]⟩
  | other shown =>
    left
    exact ⟨shown, by simp [EscrowTest.renderField, pure_eq]⟩

theorem renderField_rejected (sdk : Sdk) (field : Field) (err : JsError)
    (h : looksLikeAddress field = true)
    (hsdk : sdk.fromSolidityAddress field.ownString = .error err) :
    EscrowTest.renderField sdk field = ⟨[], .threw err⟩ := by
  cases field with
  | str text =>
    simp only [looksLikeAddress] at h
    simp only [Field.ownString] at hsdk
    simp [EscrowTest.renderField, h, hsdk, bind_eq, ofExcept_error_bind]
  | other shown => simp [looksLikeAddress] at h

theorem renderArgs_cases (sdk : Sdk) (args : List Field) :
    ∀ (n f : Nat) (outputStr : String), args.length - f = n →
      (∃ text, EscrowTest.renderArgs sdk args f outputStr = ⟨[], .returned text⟩)
        ∨ (∃ err, EscrowTest.renderArgs sdk args f outputStr = ⟨[], .threw err⟩) := by
  intro n
  induction n with
  | zero =>
    intro f outputStr hn
    rw [EscrowTest.renderArgs]
    have hf : ¬ f < args.length := by omega
    rw [dif_neg hf]
    exact Or.inl ⟨outputStr, rfl⟩
  | succ n ih =>
    intro f outputStr hn
    rw [EscrowTest.renderArgs]
    have hf : f < args.length := by omega
    rw [dif_pos hf]
    rcases renderField_cases sdk args[f] with ⟨text, ht⟩ | ⟨err, he⟩
    · rw [ht]
      simp only [bind_eq, returned_bind, List.nil_append]
      exact ih (f + 1) _ (by omega)
    · rw [he]
      exact Or.inr ⟨err, rfl⟩

theorem renderArgs_rejected (sdk : Sdk) (args : List Field) :
    ∀ (n f : Nat) (outputStr : String), args.length - f = n →
      (∃ field ∈ args.drop f, looksLikeAddress field = true
        ∧ ∃ err, sdk.fromSolidityAddress field.ownString = .error err) →
      ∃ err, EscrowTest.renderArgs sdk args f outputStr = ⟨[], .threw err⟩ := by
  intro n
  induction n with
  | zero =>
    intro f outputStr hn hbad
    rw [List.drop_of_length_le (by omega)] at hbad
    simp at hbad
  | succ n ih =>
    intro f outputStr hn hbad
    rw [EscrowTest.renderArgs]
    have hf : f < args.length := by omega
    rw [dif_pos hf]
    rw [List.drop_eq_getElem_cons hf] at hbad
    obtain ⟨field, hmem, hlooks, err, herr⟩ := hbad
    rcases renderField_cases sdk args[f] with ⟨text, ht⟩ | ⟨err', he⟩
    · rw [ht]
      simp only [bind_eq, returned_bind, List.nil_append]
      rcases List.mem_cons.mp hmem with hhead | htail
      · rw [renderField_rejected sdk args[f] err (hhead ▸ hlooks) (hhead ▸ herr)] at ht
        simp at ht
      · exact ih (f + 1) _ (by omega) ⟨field, htail, hlooks, err, herr⟩
    · rw [he]
      exact ⟨err', rfl⟩

theorem printLog_cases (g : EscrowTest.Globals) (sdk : Sdk) (log : EscrowTest.MirrorLog) :
    (EscrowTest.printLog g sdk log).outcome = .returned ()
      ∨ ∃ err, (EscrowTest.printLog g sdk log).outcome = .threw err := by
  unfold EscrowTest.printLog
  by_cases hdata : log.data = "0x"
  · simp [hdata, pure_eq]
  · rw [if_neg hdata]
    cases hiface : g.iface with
    | none => simp [bind_eq, EscrowTest.Globals.getIface, hiface, throwJs, threw_bind]
    | some iface =>
      cases hparse : iface.parseLog log.topics log.data with
      | error err =>
        simp [bind_eq, EscrowTest.Globals.getIface, hiface, pure_eq, returned_bind, hparse,
          ofExcept_error_bind]
      | ok event =>
        have key : ∀ out : String,
            ((EscrowTest.renderArgs sdk event.args 0 out).bind
              fun outputStr => emit (.log [outputStr])).outcome = .returned ()
            ∨ ∃ err, ((EscrowTest.renderArgs sdk event.args 0 out).bind
              fun outputStr => emit (.log [outputStr])).outcome = .threw err := by
          intro out
          rcases renderArgs_cases sdk event.args _ 0 out rfl with ⟨text, ht⟩ | ⟨err, he⟩
          · simp [ht, returned_bind, emit]
          · simp [he, threw_bind]
        simp only [bind_eq, EscrowTest.Globals.getIface, hiface, pure_eq, returned_bind, hparse,
          ofExcept_ok_bind]
        exact key _

theorem printLog_fails (g : EscrowTest.Globals) (sdk : Sdk) (log : EscrowTest.MirrorLog)
    (h : EntryFails g sdk log) :
    ∃ err, (EscrowTest.printLog g sdk log).outcome = .threw err := by
  obtain ⟨hdata, hrest⟩ := h
  unfold EscrowTest.printLog
  rw [if_neg hdata]
  cases hiface : g.iface with
  | none => simp [bind_eq, EscrowTest.Globals.getIface, hiface, throwJs, threw_bind]
  | some iface =>
    simp only [hiface] at hrest
    cases hparse : iface.parseLog log.topics log.data with
    | error err =>
      simp [bind_eq, EscrowTest.Globals.getIface, hiface, pure_eq, returned_bind, hparse,
        ofExcept_error_bind]
    | ok event =>
      simp only [hparse] at hrest
      have key : ∀ out : String,
          ∃ err, ((EscrowTest.renderArgs sdk event.args 0 out).bind
            fun outputStr => emit (.log [outputStr])).outcome = .threw err := by
        intro out
        obtain ⟨err, he⟩ := renderArgs_rejected sdk event.args _ 0 out rfl
          (by simpa using hrest)
        exact ⟨err, by simp [he, threw_bind]⟩
      simp only [bind_eq, EscrowTest.Globals.getIface, hiface, pure_eq, returned_bind, hparse,
        ofExcept_ok_bind]
      exact key _

theorem forEach_printLog_cases (g : EscrowTest.Globals) (sdk : Sdk) :
    ∀ (logs : List EscrowTest.MirrorLog),
      (EscrowTest.forEach (EscrowTest.printLog g sdk) logs).outcome = .returned ()
        ∨ ∃ err, (EscrowTest.forEach (EscrowTest.printLog g sdk) logs).outcome = .threw err := by
  intro logs
  induction logs with
  | nil => exact Or.inl rfl
  | cons log rest ih =>
    simp only [EscrowTest.forEach, bind_eq, Run.bind]
    rcases printLog_cases g sdk log with h | ⟨err, h⟩
    · rw [h]
      exact ih
    · rw [h]
      exact Or.inr ⟨err, rfl⟩

theorem forEach_printLog_fails (g : EscrowTest.Globals) (sdk : Sdk) :
    ∀ (logs : List EscrowTest.MirrorLog), (∃ log ∈ logs, EntryFails g sdk log) →
      ∃ err, (EscrowTest.forEach (EscrowTest.printLog g sdk) logs).outcome = .threw err := by
  intro logs
  induction logs with
  | nil => intro h; simp at h
  | cons log rest ih =>
    rintro ⟨bad, hmem, hbad⟩
    simp only [EscrowTest.forEach, bind_eq, Run.bind]
    rcases printLog_cases g sdk log with h | ⟨err, h⟩
    · rw [h]
      rcases List.mem_cons.mp hmem with hhead | htail
      · obtain ⟨err, he⟩ := printLog_fails g sdk log (hhead ▸ hbad)
        rw [h] at he
        simp at he
      · exact ih ⟨bad, htail, hbad⟩
    · rw [h]
      exact ⟨err, rfl⟩

/-- C10: once the request to the mirror node is issued, `checkLastMirrorEvent` always
completes normally.  A rejected request, an answer without a `logs` array, and an
exception raised while decoding or rendering a log entry are each caught and printed
with `console.error` as the last step of the run. -/
theorem checkLastMirrorEvent_never_throws (g : EscrowTest.Globals) (sdk : Sdk)
    (mirror : String → Except JsError EscrowTest.MirrorResponse) (cId : EntityId)
    (hid : g.contractId = some cId) :
    (EscrowTest.checkLastMirrorEvent g sdk mirror).outcome = .returned ()
    ∧ (EscrowTest.checkLastMirrorEvent g sdk mirror).trace.head?
        = some (.httpGet (EscrowTest.mirrorUrl g.baseUrl cId))
    ∧ (∀ err, mirror (EscrowTest.mirrorUrl g.baseUrl cId) = .error err →
        (EscrowTest.checkLastMirrorEvent g sdk mirror).trace
          = [.httpGet (EscrowTest.mirrorUrl g.baseUrl cId), .logError err])
    ∧ (mirror (EscrowTest.mirrorUrl g.baseUrl cId) = .ok ⟨none⟩ →
        (EscrowTest.checkLastMirrorEvent g sdk mirror).trace
          = [.httpGet (EscrowTest.mirrorUrl g.baseUrl cId), .logError (typeError "forEach")])
    ∧ (∀ logs, mirror (EscrowTest.mirrorUrl g.baseUrl cId) = .ok ⟨some logs⟩ →
        (∃ log ∈ logs, EntryFails g sdk log) →
        ∃ err, (EscrowTest.checkLastMirrorEvent g sdk mirror).trace.getLast?
          = some (.logError err)) := by
  unfold EscrowTest.checkLastMirrorEvent
  simp only [bind_eq, hid, pure_eq, returned_bind, emit_bind, List.nil_append]
  refine ⟨?_, by simp, ?_, ?_, ?_⟩
  · cases hget : mirror (EscrowTest.mirrorUrl g.baseUrl cId) with
    | error err => simp [tryCatch, ofExcept_error_bind, emit]
    | ok response =>
      cases hlogs : response.logs with
      | none => simp [tryCatch, ofExcept_ok_bind, hlogs, throwJs, threw_bind, emit]
      | some logs =>
        simp only [ofExcept_ok_bind, hlogs, returned_bind, List.nil_append]
        rcases forEach_printLog_cases g sdk logs with h | ⟨err, h⟩
        · simp [tryCatch, h]
        · simp [tryCatch, h, emit]
  · intro err hget
    simp [hget, tryCatch, ofExcept_error_bind, emit]
  · intro hget
    simp [hget, tryCatch, ofExcept_ok_bind, throwJs, threw_bind, emit]
  · intro logs hget hbad
    obtain ⟨err, h⟩ := forEach_printLog_fails g sdk logs hbad
    refine ⟨err, ?_⟩
    simp only [hget, tryCatch, ofExcept_ok_bind, returned_bind, h, emit, List.nil_append]
    rw [← List.cons_append]
    exact List.getLast?_concat _

/-- C10 evaluated on a mirror node that cannot be reached and on an event the ABI
cannot decode. -/
theorem checkLastMirrorEvent_never_throws_witness :
    (EscrowTest.checkLastMirrorEvent sampleGlobals sampleSdk unreachableMirror).outcome
        = .returned ()
      ∧ (EscrowTest.checkLastMirrorEvent sampleGlobals sampleSdk unreachableMirror).trace
        = [.httpGet (EscrowTest.mirrorUrl sampleGlobals.baseUrl ⟨0, 0, 5005⟩),
           .logError ⟨"Network Error", none⟩]
      ∧ (EscrowTest.checkLastMirrorEvent mismatchedGlobals sampleSdk sampleMirror).outcome
        = .returned () :=
  ⟨(checkLastMirrorEvent_never_throws sampleGlobals sampleSdk unreachableMirror ⟨0, 0, 5005⟩
      rfl).1,
   (checkLastMirrorEvent_never_throws sampleGlobals sampleSdk unreachableMirror ⟨0, 0, 5005⟩
      rfl).2.2.1 ⟨"Network Error", none⟩ rfl,
   (checkLastMirrorEvent_never_throws mismatchedGlobals sampleSdk sampleMirror ⟨0, 0, 5005⟩
      rfl).1⟩

theorem bind_returned {α β : Type} (m : Run α) (f : α → Run β) (b : β)
    (h : (Run.bind m f).outcome = .returned b) :
    ∃ a, m.outcome = .returned a ∧ (f a).outcome = .returned b := by
  unfold Run.bind at h
  cases hm : m.outcome with
  | returned a =>
    rw [hm] at h
    exact ⟨a, rfl, h⟩
  | threw e =>
    rw [hm] at h
    simp at h
  | exited c =>
    rw [hm] at h
    simp at h

theorem test_contractExecuteFcn_receipt (g : EscrowTest.Globals) (ledger : Ledger)
    (cId : EntityId) (gasLim : Nat) (fcnName : String) (params : List String)
    (amountHbar : Nat) (results : Receipt × Option Result × Record)
    (h : (EscrowTest.contractExecuteFcn g ledger cId gasLim fcnName params amountHbar).outcome
      = .returned results) :
    ∃ tx, ledger.getReceipt tx = .ok results.1 := by
  unfold EscrowTest.contractExecuteFcn at h
  simp only [bind_eq] at h
  obtain ⟨_, _, h⟩ := bind_returned _ _ _ h
  obtain ⟨iface, _, h⟩ := bind_returned _ _ _ h
  obtain ⟨cmd, _, h⟩ := bind_returned _ _ _ h
  obtain ⟨_, _, h⟩ := bind_returned _ _ _ h
  obtain ⟨_, _, h⟩ := bind_returned _ _ _ h
  obtain ⟨tx, _, h⟩ := bind_returned _ _ _ h
  obtain ⟨_, _, h⟩ := bind_returned _ _ _ h
  obtain ⟨rx, hrx, h⟩ := bind_returned _ _ _ h
  obtain ⟨_, _, h⟩ := bind_returned _ _ _ h
  obtain ⟨record, _, h⟩ := bind_returned _ _ _ h
  obtain ⟨decoded, _, h⟩ := bind_returned _ _ _ h
  refine ⟨tx, ?_⟩
  cases hget : ledger.getReceipt tx with
  | error err => simp [hget, ofExcept] at hrx
  | ok rx' =>
    simp only [hget, ofExcept, Outcome.returned.injEq] at hrx
    simp only [pure_eq, Outcome.returned.injEq] at h
    rw [← h, hrx]

/-- C12: the comparison `status.toString() == 'SUCESS'` is true for the literal
`SUCESS` only; it is false for `SUCCESS` and for every status of a ledger that returns
no status spelled `SUCESS`, so on such a ledger the funding step followed by
`expect(...).to.be.true` never completes: the assertion cannot pass. -/
theorem sucess_comparison_never_true (g : EscrowTest.Globals) (ledger : Ledger)
    (cId : EntityId)
    (hledger : ∀ tx rx, ledger.getReceipt tx = .ok rx → rx.status ≠ "SUCESS") :
    (∀ status, EscrowTest.statusIsSucess status = true ↔ status = "SUCESS")
    ∧ EscrowTest.statusIsSucess "SUCCESS" = false
    ∧ (∀ tx rx, ledger.getReceipt tx = .ok rx → EscrowTest.statusIsSucess rx.status = false)
    ∧ ∀ u, (EscrowTest.fundAndExpect g ledger cId).outcome ≠ .returned u := by
  have hiff : ∀ status, EscrowTest.statusIsSucess status = true ↔ status = "SUCESS" := by
    intro status
    simp [EscrowTest.statusIsSucess]
  have hfalse : ∀ tx rx, ledger.getReceipt tx = .ok rx →
      EscrowTest.statusIsSucess rx.status = false := by
    intro tx rx hrx
    cases hs : EscrowTest.statusIsSucess rx.status with
    | false => rfl
    | true => exact absurd ((hiff _).mp hs) (hledger tx rx hrx)
  refine ⟨hiff, by decide, hfalse, ?_⟩
  intro u hu
  unfold EscrowTest.fundAndExpect at hu
  simp only [bind_eq] at hu
  obtain ⟨results, hres, hexp⟩ := bind_returned _ _ _ hu
  obtain ⟨tx, hrx⟩ := test_contractExecuteFcn_receipt g ledger cId _ _ _ _ results hres
  simp [EscrowTest.expectTrue, hfalse tx _ hrx, throwJs] at hexp

/-- C12 evaluated on a ledger whose receipts carry the status `SUCCESS`: the assertion
throws. -/
theorem sucess_comparison_never_true_witness :
    EscrowTest.statusIsSucess "SUCCESS" = false
      ∧ (∀ u, (EscrowTest.fundAndExpect sampleGlobals sampleLedger ⟨0, 0, 5005⟩).outcome
          ≠ .returned u)
      ∧ (EscrowTest.fundAndExpect sampleGlobals sampleLedger ⟨0, 0, 5005⟩).outcome
          = .threw ⟨"AssertionError: expected false to be true", none⟩ :=
  ⟨(sucess_comparison_never_true sampleGlobals sampleLedger ⟨0, 0, 5005⟩
      (fun _ rx h => by
        simp only [sampleLedger, Except.ok.injEq] at h
        rw [← h]
        decide)).2.1,
   (sucess_comparison_never_true sampleGlobals sampleLedger ⟨0, 0, 5005⟩
      (fun _ rx h => by
        simp only [sampleLedger, Except.ok.injEq] at h
        rw [← h]
        decide)).2.2.2,
   by decide⟩

/-! ## The pattern matched against the contract identity -/

theorem digitChar_test (m : Nat) (h : m < 10) :
    EscrowTest.CharClass.test .digit (Nat.digitChar m) = true
      ∧ (1 ≤ m → EscrowTest.CharClass.test .nonZeroDigit (Nat.digitChar m) = true) := by
  interval_cases m <;> exact ⟨by decide, by decide⟩

/-- Shape of the decimal digits printed for a number: a first digit, not `0` when the
number is positive, followed by further digits exactly when the number is 10 or more. -/
theorem toDigitsCore_shape :
    ∀ (fuel n : Nat) (ds : List Char), n < fuel →
      ∃ first more, Nat.toDigitsCore 10 fuel n ds = first :: more ++ ds
        ∧ (∀ ch ∈ first :: more, EscrowTest.CharClass.test .digit ch = true)
        ∧ (1 ≤ n → EscrowTest.CharClass.test .nonZeroDigit first = true)
        ∧ (n < 10 → more = [])
        ∧ (10 ≤ n → more ≠ []) := by
  intro fuel
  induction fuel with
  | zero => intro n ds h; omega
  | succ fuel ih =>
    intro n ds h
    have hd := digitChar_test (n % 10) (Nat.mod_lt _ (by decide))
    by_cases hq : n / 10 = 0
    · have hlt : n < 10 := by omega
      have hmod : n % 10 = n := Nat.mod_eq_of_lt hlt
      refine ⟨Nat.digitChar (n % 10), [], ?_, ?_, ?_, fun _ => rfl, fun h10 => by omega⟩
      · simp [Nat.toDigitsCore, hq]
      · intro ch hch
        simp only [List.mem_singleton] at hch
        rw [hch]
        exact hd.1
      · intro h1
        exact hd.2 (by omega)
    · obtain ⟨first, more, heq, hall, hnz, _, _⟩ :=
        ih (n / 10) (Nat.digitChar (n % 10) :: ds) (by omega)
      refine ⟨first, more ++ [Nat.digitChar (n % 10)], ?_, ?_, ?_, fun h10 => by omega,
        fun _ => by simp⟩
      · simp [Nat.toDigitsCore, hq, heq]
      · intro ch hch
        simp only [List.mem_cons, List.mem_append, List.mem_singleton, List.not_mem_nil,
          or_false] at hch
        rcases hch with hch | hch | hch
        · exact hall ch (by simp [hch])
        · exact hall ch (by simp [hch])
        · rw [hch]
          exact hd.1
      · intro _
        exact hnz (by omega)

theorem toDigits_shape (n : Nat) :
    ∃ first more, Nat.toDigits 10 n = first :: more
      ∧ (∀ ch ∈ first :: more, EscrowTest.CharClass.test .digit ch = true)
      ∧ (1 ≤ n → EscrowTest.CharClass.test .nonZeroDigit first = true)
      ∧ (n < 10 → more = [])
      ∧ (10 ≤ n → more ≠ []) := by
  obtain ⟨first, more, heq, hrest⟩ := toDigitsCore_shape (n + 1) n [] (by omega)
  exact ⟨first, more, by simpa [Nat.toDigits] using heq, hrest⟩

theorem toString_chars (shard realm num : Nat) :
    (EntityId.toString ⟨shard, realm, num⟩).toList
      = Nat.toDigits 10 shard ++ '.' :: (Nat.toDigits 10 realm ++ '.' :: Nat.toDigits 10 num) := by
  simp [EntityId.toString, Nat.repr, String.toList, List.asString]

/-- A quantified class followed by input it cannot take: the run is consumed whole. -/
theorem matchHere_run (c : EscrowTest.CharClass) (items : List EscrowTest.Item)
    (tail rest : List Char) (hnext : ∀ ch t, tail = ch :: t → c.test ch = false)
    (htail : EscrowTest.matchHere items tail = some rest) :
    ∀ (first : Char) (more : List Char), (∀ ch ∈ first :: more, c.test ch = true) →
      EscrowTest.matchHere (.oneOrMore c :: items) (first :: more ++ tail) = some rest := by
  have hstop : EscrowTest.matchHere (.oneOrMore c :: items) tail = none := by
    cases tail with
    | nil => rfl
    | cons ch t => simp [EscrowTest.matchHere, hnext ch t rfl]
  intro first more
  induction more generalizing first with
  | nil =>
    intro hall
    simp [EscrowTest.matchHere, hall first (by simp), hstop, htail]
  | cons second more ih =>
    intro hall
    have hnextRun := ih second (fun ch hch => hall ch (List.mem_cons_of_mem _ hch))
    simp only [List.cons_append] at hnextRun ⊢
    rw [EscrowTest.matchHere, if_pos (hall first (by simp)), hnextRun]

/-- What a successful match of a quantified class has consumed. -/
theorem matchHere_oneOrMore_some (c : EscrowTest.CharClass) (items : List EscrowTest.Item)
    (rest : List Char) :
    ∀ input, EscrowTest.matchHere (.oneOrMore c :: items) input = some rest →
      ∃ run tail, run ≠ [] ∧ (∀ ch ∈ run, c.test ch = true) ∧ input = run ++ tail
        ∧ EscrowTest.matchHere items tail = some rest := by
  intro input
  induction input with
  | nil => intro h; simp [EscrowTest.matchHere] at h
  | cons ch input ih =>
    intro h
    by_cases hc : c.test ch = true
    · simp only [EscrowTest.matchHere, hc, if_true] at h
      cases hmore : EscrowTest.matchHere (.oneOrMore c :: items) input with
      | some rest' =>
        rw [hmore] at h
        simp only [Option.some.injEq] at h
        obtain ⟨run, tail, _, hall, hinput, htail⟩ := ih (h ▸ hmore)
        refine ⟨ch :: run, tail, by simp, ?_, by simp [hinput], htail⟩
        intro x hx
        rcases List.mem_cons.mp hx with hx | hx
        · rw [hx]; exact hc
        · exact hall x hx
      | none =>
        rw [hmore] at h
        exact ⟨[ch], input, by simp, by simpa using hc, rfl, h⟩
    · simp [EscrowTest.matchHere, hc] at h

/-- What a successful match of a single class has consumed. -/
theorem matchHere_one_some (c : EscrowTest.CharClass) (items : List EscrowTest.Item)
    (input rest : List Char)
    (h : EscrowTest.matchHere (.one c :: items) input = some rest) :
    ∃ ch tail, input = ch :: tail ∧ c.test ch = true
      ∧ EscrowTest.matchHere items tail = some rest := by
  cases input with
  | nil => simp [EscrowTest.matchHere] at h
  | cons ch tail =>
    by_cases hc : c.test ch = true
    · exact ⟨ch, tail, rfl, hc, by simpa [EscrowTest.matchHere, hc] using h⟩
    · simp [EscrowTest.matchHere, hc] at h

theorem execFrom_none (items : List EscrowTest.Item) :
    ∀ input, (∀ skipped tail, input = skipped ++ tail → EscrowTest.matchHere items tail = none) →
      EscrowTest.execFrom items input = none := by
  intro input
  induction input with
  | nil =>
    intro h
    simp [EscrowTest.execFrom, h [] [] rfl]
  | cons ch input ih =>
    intro h
    have hrest := ih (fun skipped tail heq => h (ch :: skipped) tail (by simp [heq]))
    simp [EscrowTest.execFrom, h [] (ch :: input) rfl, hrest]

theorem digit_ne_dot (ch : Char) (h : EscrowTest.CharClass.test .digit ch = true) :
    ch ≠ '.' := by
  intro hdot
  rw [hdot] at h
  exact absurd h (by decide)

theorem nonZeroDigit_ne_dot (ch : Char)
    (h : EscrowTest.CharClass.test .nonZeroDigit ch = true) : ch ≠ '.' := by
  intro hdot
  rw [hdot] at h
  exact absurd h (by decide)

theorem digits_count_dot (run : List Char)
    (h : ∀ ch ∈ run, EscrowTest.CharClass.test .digit ch = true) : run.count '.' = 0 := by
  rw [List.count_eq_zero]
  intro hmem
  exact digit_ne_dot _ (h _ hmem) rfl

theorem dot_test (ch : Char) (h : EscrowTest.CharClass.test .dot ch = true) : ch = '.' := by
  simpa [EscrowTest.CharClass.test] using h

/-- The text after the last dot is determined by the whole text. -/
theorem after_last_dot (x y : List Char) :
    ∀ (x' y' : List Char), '.' ∉ y → '.' ∉ y' → x ++ '.' :: y = x' ++ '.' :: y' → y = y' := by
  induction x with
  | nil =>
    intro x' y' hy hy' heq
    cases x' with
    | nil => simpa using heq
    | cons a x' =>
      simp only [List.nil_append, List.cons_append, List.cons.injEq] at heq
      exact absurd (heq.2 ▸ (by simp : '.' ∈ x' ++ '.' :: y')) hy
  | cons a x ih =>
    intro x' y' hy hy' heq
    cases x' with
    | nil =>
      simp only [List.nil_append, List.cons_append, List.cons.injEq] at heq
      exact absurd (heq.2 ▸ (by simp : '.' ∈ x ++ '.' :: y)) hy'
    | cons b x' =>
      simp only [List.cons_append, List.cons.injEq] at heq
      exact ih x' y' hy hy' heq.2

/-- On three runs of digits separated by dots, the last one starting with a non-zero
digit and holding a second digit, `addressRegex` matches at the first character and
consumes the whole text. -/
theorem matchHere_addressRegex_whole (a0 b0 c0 c1 : Char) (a b c : List Char)
    (ha : ∀ ch ∈ a0 :: a, EscrowTest.CharClass.test .digit ch = true)
    (hb : ∀ ch ∈ b0 :: b, EscrowTest.CharClass.test .digit ch = true)
    (hc0 : EscrowTest.CharClass.test .nonZeroDigit c0 = true)
    (hc : ∀ ch ∈ c1 :: c, EscrowTest.CharClass.test .digit ch = true) :
    EscrowTest.matchHere EscrowTest.addressRegex
      (a0 :: a ++ '.' :: (b0 :: b ++ '.' :: (c0 :: c1 :: c))) = some [] := by
  have hdot : ∀ (ch : Char) (t tail : List Char), '.' :: tail = ch :: t →
      EscrowTest.CharClass.test .digit ch = false := by
    intro ch t tail heq
    simp only [List.cons.injEq] at heq
    rw [← heq.1]
    decide
  have h6 : EscrowTest.matchHere [.oneOrMore .digit] (c1 :: c ++ []) = some [] :=
    matchHere_run .digit [] [] [] (fun ch t heq => by simp at heq) rfl c1 c hc
  have h5 : EscrowTest.matchHere [.one .nonZeroDigit, .oneOrMore .digit] (c0 :: c1 :: c)
      = some [] := by
    rw [EscrowTest.matchHere, if_pos hc0]
    simpa using h6
  have h4 : EscrowTest.matchHere [.one .dot, .one .nonZeroDigit, .oneOrMore .digit]
      ('.' :: c0 :: c1 :: c) = some [] := by
    rw [EscrowTest.matchHere, if_pos (by decide)]
    exact h5
  have h3 := matchHere_run .digit [.one .dot, .one .nonZeroDigit, .oneOrMore .digit]
    ('.' :: c0 :: c1 :: c) [] (fun ch t heq => hdot ch t _ heq) h4 b0 b hb
  have h2 : EscrowTest.matchHere
      [.one .dot, .oneOrMore .digit, .one .dot, .one .nonZeroDigit, .oneOrMore .digit]
      ('.' :: (b0 :: b ++ '.' :: c0 :: c1 :: c)) = some [] := by
    rw [EscrowTest.matchHere, if_pos (by decide)]
    exact h3
  exact matchHere_run .digit _ _ [] (fun ch t heq => hdot ch t _ heq) h2 a0 a ha

/-- On two runs of digits and a single digit separated by dots, `addressRegex` matches at
no position. -/
theorem matchHere_addressRegex_short (a b : List Char) (c : Char)
    (ha : ∀ ch ∈ a, EscrowTest.CharClass.test .digit ch = true)
    (hb : ∀ ch ∈ b, EscrowTest.CharClass.test .digit ch = true)
    (hc : EscrowTest.CharClass.test .digit c = true)
    (skipped tail : List Char) (hsplit : a ++ '.' :: (b ++ '.' :: [c]) = skipped ++ tail) :
    EscrowTest.matchHere EscrowTest.addressRegex tail = none := by
  cases h : EscrowTest.matchHere EscrowTest.addressRegex tail with
  | none => rfl
  | some rest =>
    exfalso
    unfold EscrowTest.addressRegex at h
    obtain ⟨r1, t1, _, _, htail, h⟩ := matchHere_oneOrMore_some _ _ _ _ h
    obtain ⟨d1, t2, ht1, hd1, h⟩ := matchHere_one_some _ _ _ _ h
    obtain ⟨r2, t3, _, _, ht2, h⟩ := matchHere_oneOrMore_some _ _ _ _ h
    obtain ⟨d2, t4, ht3, hd2, h⟩ := matchHere_one_some _ _ _ _ h
    obtain ⟨z, t5, ht4, hz, h⟩ := matchHere_one_some _ _ _ _ h
    obtain ⟨r3, t6, hr3, hr3d, ht5, _⟩ := matchHere_oneOrMore_some _ _ _ _ h
    have hd1' := dot_test d1 hd1
    have hd2' := dot_test d2 hd2
    subst hd1' hd2'
    have hwhole : a ++ '.' :: (b ++ '.' :: [c])
        = (skipped ++ r1 ++ '.' :: r2) ++ '.' :: (z :: (r3 ++ t6)) := by
      rw [hsplit, htail, ht1, ht2, ht3, ht4, ht5]
      simp
    have hcount : (a ++ '.' :: (b ++ '.' :: [c])).count '.' = 2 := by
      have hcne : c ≠ '.' := digit_ne_dot c hc
      simp [digits_count_dot a ha, digits_count_dot b hb, List.count_cons, hcne]
    have hy : (z :: (r3 ++ t6)).count '.' = 0 := by
      rw [hwhole] at hcount
      simp only [List.count_append, List.count_cons_self] at hcount
      omega
    have hlast := after_last_dot (skipped ++ r1 ++ '.' :: r2) (z :: (r3 ++ t6))
      (a ++ '.' :: b) [c] (List.count_eq_zero.mp hy)
      (by simpa using (digit_ne_dot c hc).symm) (by rw [← hwhole]; simp)
    simp only [List.cons.injEq, List.append_eq_nil] at hlast
    exact hr3 hlast.2.1

theorem stringMatch_of_whole (text : String) (first : Char) (more : List Char)
    (htext : text.toList = first :: more)
    (h : EscrowTest.matchHere EscrowTest.addressRegex (first :: more) = some []) :
    EscrowTest.stringMatch text = some [text, text] := by
  have hmk : String.mk (first :: more) = text := by
    rw [← htext]
    cases text
    rfl
  unfold EscrowTest.stringMatch
  rw [htext]
  simp [EscrowTest.execFrom, h, hmk]

/-- C11, amended: for every contract identity printed as `shard.realm.num`, matching the
text against `addressRegex` yields the array of the whole text and of the one capture
group, of length 2, when `num` is 10 or more; when `num` is below 10 there is no match,
`match` returns `null` and reading its `length` throws. -/
theorem addressRegex_matches_from_ten (shard realm num : Nat) :
    (10 ≤ num →
      EscrowTest.stringMatch (EntityId.toString ⟨shard, realm, num⟩)
          = some [EntityId.toString ⟨shard, realm, num⟩, EntityId.toString ⟨shard, realm, num⟩]
        ∧ EscrowTest.matchLengthIsTwo ⟨shard, realm, num⟩ = .ok true)
    ∧ (num < 10 →
      EscrowTest.stringMatch (EntityId.toString ⟨shard, realm, num⟩) = none
        ∧ EscrowTest.matchLengthIsTwo ⟨shard, realm, num⟩
          = .error ⟨"TypeError: Cannot read properties of null (reading 'length')", none⟩) := by
  obtain ⟨a0, a, hA, hAd, _, _, _⟩ := toDigits_shape shard
  obtain ⟨b0, b, hB, hBd, _, _, _⟩ := toDigits_shape realm
  obtain ⟨c0, c, hC, hCd, hCnz, hCshort, hClong⟩ := toDigits_shape num
  have hchars := toString_chars shard realm num
  rw [hA, hB, hC] at hchars
  constructor
  · intro h10
    obtain ⟨c1, c', hc'⟩ := List.exists_cons_of_ne_nil (hClong h10)
    rw [hc'] at hchars hCd
    have hwhole := matchHere_addressRegex_whole a0 b0 c0 c1 a b c' hAd hBd (hCnz (by omega))
      (fun ch hch => hCd ch (List.mem_cons_of_mem _ hch))
    have hmatch := stringMatch_of_whole _ a0 _ (by simpa using hchars) (by simpa using hwhole)
    exact ⟨hmatch, by simp [EscrowTest.matchLengthIsTwo, hmatch]⟩
  · intro hlt
    rw [hCshort hlt] at hchars
    have hnone : EscrowTest.execFrom EscrowTest.addressRegex
        (EntityId.toString ⟨shard, realm, num⟩).toList = none := by
      rw [hchars]
      exact execFrom_none _ _ (fun skipped tail hsplit =>
        matchHere_addressRegex_short (a0 :: a) (b0 :: b) c0 hAd hBd (hCd c0 (by simp))
          skipped tail hsplit)
    have hmatch : EscrowTest.stringMatch (EntityId.toString ⟨shard, realm, num⟩) = none := by
      unfold EscrowTest.stringMatch
      rw [hnone]
    exact ⟨hmatch, by simp [EscrowTest.matchLengthIsTwo, hmatch]⟩

/-- C11, amended, evaluated on the contracts `0.0.5005` and `0.0.5`. -/
theorem addressRegex_matches_from_ten_witness :
    EscrowTest.matchLengthIsTwo ⟨0, 0, 5005⟩ = .ok true
      ∧ EscrowTest.stringMatch (EntityId.toString ⟨0, 0, 5⟩) = none :=
  ⟨((addressRegex_matches_from_ten 0 0 5005).1 (by decide)).2,
   ((addressRegex_matches_from_ten 0 0 5).2 (by decide)).1⟩

/-- C11 as stated fails: the contract identity `0.0.5` is printed as three non-negative
decimal integers and `addressRegex` yields no match array for it. -/
theorem addressRegex_no_match_single_digit :
    EntityId.toString ⟨0, 0, 5⟩ = "0.0.5"
      ∧ ¬ ∃ found, EscrowTest.stringMatch (EntityId.toString ⟨0, 0, 5⟩) = some found
          ∧ found.length = 2 := by
  refine ⟨by decide, ?_⟩
  rintro ⟨found, hfound, _⟩
  have hnone : EscrowTest.stringMatch (EntityId.toString ⟨0, 0, 5⟩) = none := by decide
  rw [hnone] at hfound
  exact absurd hfound (by simp)

end Escrow
